import Mathlib

/-!
# Verification of the TalentFlow content-acquisition and extraction engine

A shallow embedding of the core acquisition/extraction pipeline of the
TalentFlow repository:

* `src/server/app/utils/extractor.py` (`SimpleJobExtractor`)
* `src/server/app/utils/job_sites.py` (`enhance_job_data`, `get_site_key`)
* `src/server/app/utils/antibot.py` (`AntiBot.detect_blocking` and friends)
* `src/server/app/utils/advanced_fetch.py` (`IPRotationManager`)
* `src/server/app/utils/advanced_extractor.py` (`extract_job_advanced`)
* `src/tools/job_scraper.py` (`JobScraper` merge / repair)

Python dictionaries with a fixed field vocabulary are modelled as records of
`Option` fields (`none` = key absent *or* present with value `None`; the merge
in the source skips `None` values, so this identification is merge-exact).
Machine floats only ever hold exact small decimals here; they are modelled as
scaled integers (confidences in hundredths, salaries in cents, clock values in
milliseconds), which keeps every computation kernel-reducible and exact.
Exceptions are modelled with `Except`.  I/O boundaries (network fetches, the
BeautifulSoup honeypot detector, date normalization, description link
formatting) are modelled as explicit function parameters, so every theorem
quantifies over their behaviour.
-/

namespace TalentFlow

/-! ## String helpers (Python semantics) -/

/-- `needle.isPrefixOf hay` on character lists (Python `str.startswith`). -/
def isPrefixL (needle hay : List Char) : Bool :=
  match needle, hay with
  | [], _ => true
  | _ :: _, [] => false
  | n :: ns, h :: hs => n == h && isPrefixL ns hs

/-- Python `needle in hay` substring test, on character lists. -/
def containsL (needle hay : List Char) : Bool :=
  isPrefixL needle hay ||
    (match hay with
     | [] => false
     | _ :: t => containsL needle t)

/-- Python `needle in hay` for strings. -/
def containsStr (hay needle : String) : Bool :=
  containsL needle.toList hay.toList

/-- `str.lower()` (ASCII), kept kernel-reducible by working on the character
list. -/
def lowerChars (l : List Char) : List Char := l.map Char.toLower

def lowerStr (s : String) : String := String.mk (lowerChars s.toList)

/-- `str.strip()` (whitespace on both ends), kernel-reducible. -/
def trimStr (s : String) : String :=
  String.mk (((s.toList.dropWhile Char.isWhitespace).reverse.dropWhile
    Char.isWhitespace).reverse)

/-- `str.split(sep)` for a one-character separator, kernel-reducible
(`"".split(".") == [""]`, `"a..b".split(".") == ["a","","b"]`). -/
def splitCharGo (c : Char) : List Char → List Char → List String
  | [], acc => [String.mk acc.reverse]
  | x :: t, acc =>
    if x = c then String.mk acc.reverse :: splitCharGo c t []
    else splitCharGo c t (x :: acc)

def splitOnChar (c : Char) (s : String) : List String :=
  splitCharGo c s.toList []

/-- `sep.join(parts)`, kernel-reducible. -/
def joinSep (sep : String) : List String → String
  | [] => ""
  | [x] => x
  | x :: y :: t => x ++ sep ++ joinSep sep (y :: t)

/-- `str.endswith(suffix)`, kernel-reducible. -/
def endsWithStr (s sfx : String) : Bool :=
  isPrefixL sfx.toList.reverse s.toList.reverse

/-- Case-insensitive substring test (`needle in hay.lower()` with a lowercase
needle, as the source always uses). -/
def containsStrI (hay needle : String) : Bool :=
  containsL (lowerChars needle.toList) (lowerChars hay.toList)

/-- First-match association-list lookup (models a Python `dict` with
duplicate-free keys). -/
def alookup {α : Type} : List (String × α) → String → Option α
  | [], _ => none
  | (k, v) :: rest, key => if k = key then some v else alookup rest key

/-- Python `x or y` for optional strings: `y` when `x` is `None` or empty. -/
def pyOrStr (x : Option String) (y : Option String) : Option String :=
  match x with
  | some s => if s = "" then y else some s
  | none => y

/-- Truthiness of an optional Python string (`None` and `""` are falsy). -/
def truthyStr : Option String → Bool
  | some s => s ≠ ""
  | none => false

/-- Python `str.title()` (ASCII): a letter is upper-cased when the previous
character is not a letter, lower-cased otherwise. -/
def pyTitleGo : Bool → List Char → List Char
  | _, [] => []
  | prevAlpha, c :: rest =>
    if c.isAlpha then
      (if prevAlpha then c.toLower else c.toUpper) :: pyTitleGo true rest
    else
      c :: pyTitleGo false rest

/-- Python `str.title()` (ASCII letters). -/
def pyTitle (s : String) : String :=
  String.mk (pyTitleGo false s.toList)

/-- Split a string at the first occurrence of `"://"`, returning the part
after it (used to model `urllib.parse.urlparse` on `scheme://netloc/...`
URLs). Returns `none` when the marker is absent (then `urlparse` yields no
hostname). -/
def afterSchemeGo : List Char → Option (List Char)
  | [] => none
  | c :: rest =>
    if isPrefixL [':', '/', '/'] (c :: rest) then some (rest.drop 2)
    else afterSchemeGo rest

/-- `urlparse(url).netloc` for `scheme://netloc/path` URLs: everything between
`"://"` and the next `/`, `?` or `#` (userinfo syntax not modelled; none of
the URLs considered use it). -/
def pyNetloc (url : String) : String :=
  match afterSchemeGo url.toList with
  | none => ""
  | some rest => String.mk (rest.takeWhile (fun c => c ≠ '/' && c ≠ '?' && c ≠ '#'))

/-- `urlparse(url).hostname`: the netloc without any `:port`, lower-cased. -/
def pyHostname (url : String) : String :=
  lowerStr (String.mk ((pyNetloc url).toList.takeWhile (fun c => c ≠ ':')))

/-! ## JSON values (the result of `json.loads`) -/

/-- JSON values.  Object key lists are assumed duplicate-free, as produced by
`json.loads`. -/
inductive Json : Type where
  | null : Json
  | bool : Bool → Json
  | num : ℚ → Json
  | str : String → Json
  | arr : List Json → Json
  | obj : List (String × Json) → Json

/-- `dict.get(key)`: `none` when the value is not an object or lacks the key. -/
def Json.get? : Json → String → Option Json
  | .obj l, key => alookup l key
  | _, _ => none

/-- Python truthiness of a JSON value. -/
def Json.truthy : Json → Bool
  | .null => false
  | .bool b => b
  | .num q => q ≠ 0
  | .str s => s ≠ ""
  | .arr l => !l.isEmpty
  | .obj l => !l.isEmpty

/-- Python `str(value)` for JSON values.  Faithful on strings, booleans and
`None`; the rendering of numbers approximates float `repr` and no theorem
depends on it. -/
def Json.pyStr : Json → String
  | .null => "None"
  | .bool true => "True"
  | .bool false => "False"
  | .num q => toString q
  | .str s => s
  | .arr _ => "[...]"
  | .obj _ => "{...}"

/-- Python `x or y` on looked-up JSON values (`y` when `x` is absent or
falsy). -/
def jsonOr (x y : Option Json) : Option Json :=
  match x with
  | some v => if v.truthy then some v else y
  | none => y

def Json.isObj : Json → Bool
  | .obj _ => true
  | _ => false

/-! ## The extraction record and field-source map

One record type covers the field vocabulary of both
`SimpleJobExtractor` and `JobScraper`. -/

/-- Salary object (`{min, max, currency, period}`).  The float amounts only
ever hold parsed decimal dollar figures with at most two decimal places, so
they are modelled exactly in *cents* as `Nat` (`100000.0 ↦ 10000000`). -/
structure Salary : Type where
  min : Nat
  max : Nat
  currency : String
  period : String
deriving DecidableEq, Repr

/-- A per-method extraction record (`Dict[str, Any]` with the fixed field
vocabulary of the pipeline).  `none` means the key is absent or `None`. -/
structure Rec : Type where
  title : Option String := none
  company : Option String := none
  location : Option String := none
  employment_type : Option String := none
  posted_date : Option String := none
  description : Option String := none
  req_id : Option String := none
  team : Option String := none
  level : Option String := none
  apply_url : Option String := none
  salary : Option Salary := none
  responsibilities : List String := []
  qualifications : List String := []
  skills : List String := []
  benefits : List String := []
deriving DecidableEq, Repr

/-- The `field_sources` dictionary: for each field, the name of the method
that supplied it (if any). -/
structure FS : Type where
  title : Option String := none
  company : Option String := none
  location : Option String := none
  employment_type : Option String := none
  posted_date : Option String := none
  description : Option String := none
  req_id : Option String := none
  team : Option String := none
  level : Option String := none
  apply_url : Option String := none
  salary : Option String := none
  responsibilities : Option String := none
  qualifications : Option String := none
  skills : Option String := none
  benefits : Option String := none
deriving DecidableEq, Repr

/-- Python dict truthiness of a record: at least one key present
(`none`-collapsing caveat: a dict all of whose values are `None` is truthy in
Python but empty here; the merge cannot distinguish the two, and no theorem
exercises that corner). -/
def Rec.nonempty (r : Rec) : Bool :=
  r.title.isSome || r.company.isSome || r.location.isSome ||
  r.employment_type.isSome || r.posted_date.isSome || r.description.isSome ||
  r.req_id.isSome || r.team.isSome || r.level.isSome || r.apply_url.isSome ||
  r.salary.isSome || !r.responsibilities.isEmpty || !r.qualifications.isEmpty ||
  !r.skills.isEmpty || !r.benefits.isEmpty

/-! ## Employment-type normalization
(`SimpleJobExtractor._normalize_employment_type`, identical in
`JobScraper._normalize_employment_type`) -/

/-- The alias table `employment_type_map`. -/
def employmentTypeMap : List (String × String) :=
  [("full time", "full-time"), ("fulltime", "full-time"),
   ("part time", "part-time"), ("parttime", "part-time"),
   ("contractor", "contract"), ("consulting", "contract"),
   ("intern", "internship"), ("temporary", "temporary"),
   ("freelance", "freelance")]

/-- The closed canonical employment-type vocabulary. -/
def canonicalEmploymentTypes : List String :=
  ["full-time", "part-time", "contract", "temporary", "internship", "freelance"]

/-- `_normalize_employment_type`: lower-case, strip, look up the alias table,
else keep the value only when it is already canonical. -/
def normalizeEmploymentType (empType : String) : Option String :=
  let s := trimStr (lowerStr empType)
  if s = "" then none
  else
    match alookup employmentTypeMap s with
    | some v => some v
    | none => if s ∈ canonicalEmploymentTypes then some s else none

/-! ## JSON-LD extraction (`SimpleJobExtractor._extract_json_ld`) -/

/-- External helpers the pipeline depends on but whose string-mangling
internals no claim touches: `_normalize_date` (strptime over four formats) and
`_format_description_links` (regex link rewriting).  Modelled as parameters so
every theorem quantifies over them. -/
structure Env : Type where
  normDate : String → Option String
  formatLinks : String → String

/-- `_location_from_joblocation`: first element of a list, then
`address.addressLocality/Region/Country` joined with `", "`, else the
location's `name`. -/
def locationFromJobLocation (jl : Json) : Option String :=
  let jl := match jl with
    | .arr (x :: _) => x
    | other => other
  match jl with
  | .obj fields =>
    let addr := jsonOr (alookup fields "address") (alookup fields "@address")
    let fromAddr : Option String :=
      match addr with
      | some (.obj a) =>
        let parts := [alookup a "addressLocality", alookup a "addressRegion",
                      alookup a "addressCountry"]
        let parts := (parts.filterMap id).filter (fun p => p.truthy)
        if parts.isEmpty then none
        else some (joinSep ", " (parts.map Json.pyStr))
      | _ => none
    match fromAddr with
    | some loc => some loc
    | none =>
      match alookup fields "name" with
      | some nm => if nm.truthy then some nm.pyStr else none
      | none => none
  | _ => none

/-- A JSON-LD field that is kept only when truthy, then stringified and
stripped. -/
def truthyStrField (v : Option Json) : Option String :=
  match v with
  | some j => if j.truthy then some (trimStr j.pyStr) else none
  | none => none

/-- The `hiringOrganization` handling of `_parse_jobposting`: name chain on a
dict organization (`name or @name or legalName or alternateName`), bare
string organizations stripped. -/
def companyFromOrg (org : Option Json) : Option String :=
  match org with
  | some (.obj o) =>
    let name := jsonOr (jsonOr (jsonOr (alookup o "name") (alookup o "@name"))
                  (alookup o "legalName")) (alookup o "alternateName")
    match name with
    | some nm => if nm.truthy then some (trimStr nm.pyStr) else none
    | none => none
  | some (.str s) => some (trimStr s)
  | _ => none

/-- `SimpleJobExtractor._parse_jobposting`. -/
def parseJobposting (env : Env) (d : Json) : Rec :=
  let title := truthyStrField (d.get? "title")
  let company : Option String :=
    companyFromOrg (jsonOr (d.get? "hiringOrganization")
      (d.get? "hiringorganization"))
  let jl := jsonOr (d.get? "jobLocation") (d.get? "joblocation")
  let location : Option String :=
    match jl with
    | some v => if v.truthy then locationFromJobLocation v else none
    | none => none
  let employment : Option String :=
    match d.get? "employmentType" with
    | some v => if v.truthy then normalizeEmploymentType v.pyStr else none
    | none => none
  let posted : Option String :=
    match d.get? "datePosted" with
    | some v => if v.truthy then env.normDate v.pyStr else none
    | none => none
  let description := truthyStrField (d.get? "description")
  { title := title, company := company, location := location,
    employment_type := employment, posted_date := posted,
    description := description }

/-- A parsed `ld+json` payload is a `JobPosting` dict
(`isinstance(item, dict) and item.get("@type") == "JobPosting"`). -/
def isJobPostingItem (j : Json) : Bool :=
  j.isObj &&
    (match j.get? "@type" with
     | some (.str s) => s = "JobPosting"
     | _ => false)

/-- The item list of one script payload (`data if isinstance(data, list) else
[data]`). -/
def ldItems : Json → List Json
  | .arr l => l
  | other => [other]

/-- `SimpleJobExtractor._extract_json_ld`, over the parsed payloads of the
document's `application/ld+json` script blocks in document order (blocks whose
content fails `json.loads` are skipped by the source and omitted from the
list).  The source returns the parse of the *first* `JobPosting`-typed item,
even when that parse yields an empty record. -/
def extractJsonLd (env : Env) (scripts : List Json) : Rec :=
  match (scripts.flatMap ldItems).find? isJobPostingItem with
  | some item => parseJobposting env item
  | none => {}

/-! ## The merge (`SimpleJobExtractor._merge`)

The Python loop walks the per-method dicts in priority order and, per key:
scalar values are inserted when non-`None` and not yet present (recording the
method in `field_sources`), list values are appended with per-item
deduplication (recording the first contributing method). -/

/-- List-field merge: append items of `new` not already present
(`for item in v: if item not in out[k]: out[k].append(item)`). -/
def listUnion (cur new : List String) : List String :=
  new.foldl (fun acc x => if x ∈ acc then acc else acc ++ [x]) cur

/-- `field_sources[k] = field_sources.get(k, name)` for a list field that is
non-empty in the incoming record. -/
def fsList (cur : Option String) (newList : List String) (nm : String) :
    Option String :=
  if newList.isEmpty then cur else (cur.orElse fun _ => some nm)

/-- `field_sources[k] = name` when a scalar key is first inserted. -/
def fsScal {α : Type} (fsCur : Option String) (cur new : Option α)
    (nm : String) : Option String :=
  if cur.isNone && new.isSome then some nm else fsCur

/-- One step of `SimpleJobExtractor._merge`: fold the record of one method
into the accumulated output and field sources. -/
def mergeStep (acc : Rec × FS) (src : Rec × String) : Rec × FS :=
  let o := acc.1
  let fs := acc.2
  let r := src.1
  let nm := src.2
  ({ title := o.title.orElse fun _ => r.title,
     company := o.company.orElse fun _ => r.company,
     location := o.location.orElse fun _ => r.location,
     employment_type := o.employment_type.orElse fun _ => r.employment_type,
     posted_date := o.posted_date.orElse fun _ => r.posted_date,
     description := o.description.orElse fun _ => r.description,
     req_id := o.req_id.orElse fun _ => r.req_id,
     team := o.team.orElse fun _ => r.team,
     level := o.level.orElse fun _ => r.level,
     apply_url := o.apply_url.orElse fun _ => r.apply_url,
     salary := o.salary.orElse fun _ => r.salary,
     responsibilities := listUnion o.responsibilities r.responsibilities,
     qualifications := listUnion o.qualifications r.qualifications,
     skills := listUnion o.skills r.skills,
     benefits := listUnion o.benefits r.benefits },
   { title := fsScal fs.title o.title r.title nm,
     company := fsScal fs.company o.company r.company nm,
     location := fsScal fs.location o.location r.location nm,
     employment_type := fsScal fs.employment_type o.employment_type r.employment_type nm,
     posted_date := fsScal fs.posted_date o.posted_date r.posted_date nm,
     description := fsScal fs.description o.description r.description nm,
     req_id := fsScal fs.req_id o.req_id r.req_id nm,
     team := fsScal fs.team o.team r.team nm,
     level := fsScal fs.level o.level r.level nm,
     apply_url := fsScal fs.apply_url o.apply_url r.apply_url nm,
     salary := fsScal fs.salary o.salary r.salary nm,
     responsibilities := fsList fs.responsibilities r.responsibilities nm,
     qualifications := fsList fs.qualifications r.qualifications nm,
     skills := fsList fs.skills r.skills nm,
     benefits := fsList fs.benefits r.benefits nm })

/-- `SimpleJobExtractor._merge` over the priority-ordered method records. -/
def extractorMerge (srcs : List (Rec × String)) : Rec × FS :=
  srcs.foldl mergeStep ({}, {})

/-- `SimpleJobExtractor._primary_method`. -/
def primaryMethod (a b c : Rec) : String :=
  if a.nonempty then "json-ld"
  else if b.nonempty then "site-patterns"
  else if c.nonempty then "profiles"
  else "fallback"

/-- `SimpleJobExtractor._confidence`, in hundredths (`0.95 ↦ 95`). -/
def methodConfidence (a b c : Rec) : Nat :=
  if a.nonempty then 95
  else if b.nonempty then 90
  else if c.nonempty then 75
  else 50

/-! ## Post-processing (`job_sites.enhance_job_data`, `job_sites.get_site_key`) -/

/-- The hostname keys of `SITE_PATTERNS`, in dict insertion order. -/
def sitePatternKeys : List String :=
  ["greenhouse.io", "lever.co", "workday.com", "jobvite.com", "bamboohr.com",
   "smartrecruiters.com", "linkedin.com", "indeed.com", "glassdoor.com"]

/-- `get_site_key`: first `SITE_PATTERNS` key contained in the lower-cased
hostname, else the explicit subdomain suffix checks. -/
def getSiteKey (url : String) : Option String :=
  let hostname := (pyHostname url)
  match sitePatternKeys.find? (fun k => containsStr hostname k) with
  | some k => some k
  | none =>
    if endsWithStr hostname ".greenhouse.io" then some "greenhouse.io"
    else if endsWithStr hostname ".lever.co" then some "lever.co"
    else if endsWithStr hostname ".workday.com" then some "workday.com"
    else if endsWithStr hostname ".jobvite.com" then some "jobvite.com"
    else if endsWithStr hostname ".bamboohr.com" then some "bamboohr.com"
    else if endsWithStr hostname ".smartrecruiters.com" then some "smartrecruiters.com"
    else none

/-- Drop a case-insensitive prefix, returning the remainder of the original
string when it matches. -/
def dropPrefixI (prefixLower : String) (s : String) : Option String :=
  if isPrefixL prefixLower.toList (lowerChars s.toList) then
    some (String.mk (s.toList.drop prefixLower.length))
  else none

/-- `re.sub(r"^(Job:|Position:|Role:)\s*", "", title, flags=IGNORECASE)`:
the anchored pattern fires at most once. -/
def stripTitleHead (s : String) : String :=
  match dropPrefixI "job:" s with
  | some r => String.mk (r.toList.dropWhile Char.isWhitespace)
  | none =>
    match dropPrefixI "position:" s with
    | some r => String.mk (r.toList.dropWhile Char.isWhitespace)
    | none =>
      match dropPrefixI "role:" s with
      | some r => String.mk (r.toList.dropWhile Char.isWhitespace)
      | none => s

/-- Try to strip `\s*-\s*word` from a reversed character list whose head is
the reversal of `word` (case-insensitively). -/
def stripDashWordRev (wordRevLower : List Char) (rev : List Char) :
    Option (List Char) :=
  if isPrefixL wordRevLower (rev.map Char.toLower) then
    let r1 := (rev.drop wordRevLower.length).dropWhile Char.isWhitespace
    match r1 with
    | '-' :: r2 => some (r2.dropWhile Char.isWhitespace)
    | _ => none
  else none

/-- `re.sub(r"\s*-\s*(Job|Position|Role)$", "", title, flags=IGNORECASE)`. -/
def stripTitleSuffix (s : String) : String :=
  let rev := s.toList.reverse
  match stripDashWordRev "job".toList.reverse rev with
  | some r => String.mk r.reverse
  | none =>
    match stripDashWordRev "position".toList.reverse rev with
    | some r => String.mk r.reverse
    | none =>
      match stripDashWordRev "role".toList.reverse rev with
      | some r => String.mk r.reverse
      | none => s

/-- The title clean-up of `enhance_job_data` (prefix sub, suffix sub,
`strip()`). -/
def cleanTitle (s : String) : String :=
  trimStr (stripTitleSuffix (stripTitleHead s))

/-- `re.sub(r"\s*\([^)]*\)$", "", location)`: drop one trailing
parenthesized group (which cannot contain `)`), plus preceding whitespace. -/
def stripTrailingParen (s : String) : String :=
  let rev := s.toList.reverse
  match rev with
  | ')' :: rest =>
    let inside := rest.takeWhile (fun c => c ≠ '(')
    if containsL [')'] inside then s
    else
      match rest.drop inside.length with
      | '(' :: r2 => String.mk ((r2.dropWhile Char.isWhitespace).reverse)
      | _ => s
  | _ => s

/-- The location clean-up of `enhance_job_data`. -/
def cleanLocation (s : String) : String :=
  let s1 := match dropPrefixI "location:" s with
    | some r => String.mk (r.toList.dropWhile Char.isWhitespace)
    | none => s
  trimStr (stripTrailingParen s1)

/-- The employment-type sniffing of `enhance_job_data` over the lower-cased
description. -/
def sniffEmploymentType (descLower : String) : Option String :=
  if containsStr descLower "full-time" || containsStr descLower "full time" then
    some "full-time"
  else if containsStr descLower "part-time" || containsStr descLower "part time" then
    some "part-time"
  else if containsStr descLower "contract" || containsStr descLower "contractor" then
    some "contract"
  else if containsStr descLower "intern" || containsStr descLower "internship" then
    some "internship"
  else none

/-- `enhance_job_data(data, url)` on the merged record (the `source_url` it
adds is threaded separately by `extract`). -/
def enhanceJobData (env : Env) (url : String) (data : Rec) : Rec :=
  let title := match data.title with
    | some t => if t ≠ "" then some (cleanTitle t) else some t
    | none => none
  let location := match data.location with
    | some l => if l ≠ "" then some (cleanLocation l) else some l
    | none => none
  let description := match data.description with
    | some d =>
      if d ≠ "" && getSiteKey url ≠ some "lever.co" then some (env.formatLinks d)
      else some d
    | none => none
  let employment := match data.employment_type with
    | some e =>
      if e ≠ "" then some e
      else match description with
        | some d => if d ≠ "" then (sniffEmploymentType (lowerStr d)).getD e |> some
                    else some e
        | none => some e
    | none =>
      match description with
      | some d => if d ≠ "" then sniffEmploymentType (lowerStr d) else none
      | none => none
  { data with title := title, location := location,
              description := description, employment_type := employment }

/-! ## Validation and repair -/

/-- Provenance metadata of the final record. -/
structure Provenance : Type where
  extraction_method : String
  /-- In hundredths (`0.95 ↦ 95`). -/
  confidence_score : Nat
  field_sources : FS
  warnings : List String
deriving DecidableEq, Repr

/-- The final job record produced by `SimpleJobExtractor.extract`. -/
structure JobRecord : Type where
  data : Rec
  title : String
  company : String
  description : String
  source_url : String
  retrieved_at : String
  provenance : Provenance
deriving DecidableEq, Repr

/-- `SimpleJobExtractor._validate_and_repair`: default the title, guess the
company from the source hostname's first label (no prefix stripping), and
default a short description, each appending a warning. -/
def repairTitle (t : Option String) (w : List String) : String × List String :=
  if truthyStr t then ((t.getD ""), w)
  else ("Job Opening", w ++ ["Title missing, used default"])

def repairCompany (c : Option String) (sourceUrl : String) (w : List String) :
    String × List String :=
  if truthyStr c then ((c.getD ""), w)
  else
    let hn := (splitOnChar '.' (pyHostname sourceUrl)).headD ""
    if hn ≠ "" then (pyTitle hn, w ++ ["Company guessed from hostname"])
    else ("Unknown Company", w ++ ["Company guessed from hostname"])

def repairDescription (d : Option String) (company title : String)
    (w : List String) : String × List String :=
  match d with
  | some d =>
    if d ≠ "" ∧ 50 ≤ d.length then (d, w)
    else ("Job opening at " ++ company ++ " for " ++ title,
          w ++ ["Description missing, used minimal default"])
  | none => ("Job opening at " ++ company ++ " for " ++ title,
             w ++ ["Description missing, used minimal default"])

def validateAndRepair (data : Rec) (sourceUrl retrievedAt : String)
    (method : String) (conf : Nat) (fs : FS) : JobRecord :=
  let p1 := repairTitle data.title []
  let title := p1.1
  let p2 := repairCompany data.company sourceUrl p1.2
  let company := p2.1
  let p3 := repairDescription data.description company title p2.2
  let description := p3.1
  let w3 := p3.2
  { data := { data with
      title := some title,
      company := some company,
      description := some description },
    title := title,
    company := company,
    description := description,
    source_url := sourceUrl,
    retrieved_at := retrievedAt,
    provenance := { extraction_method := method,
                    confidence_score := conf,
                    field_sources := fs,
                    warnings := w3 } }

/-- The priority-ordered per-method records handed to the merge by
`SimpleJobExtractor.extract`. -/
def mergeSrcs (env : Env) (scripts : List Json)
    (sitePatterns profDom microdata dom regexd : Rec) : List (Rec × String) :=
  [(extractJsonLd env scripts, "json-ld"), (sitePatterns, "site-patterns"),
   (profDom, "profiles"), (microdata, "microdata"),
   (dom, "dom"), (regexd, "regex")]

/-- `SimpleJobExtractor.extract` (`use_ai=False`).  The HTML document enters
through its observable projections: the parsed `application/ld+json` payloads
(`scripts`), and the records produced by the five remaining methods
(`extract_with_site_patterns`, `_extract_with_profile` — always `{}` since
`profiles.json` is absent from the repository —, `_extract_microdata`,
`_extract_dom`, `_extract_regex`), which are pure functions of the document
evaluated before the merge.  `retrievedAt` injects `datetime.now()`. -/
def simpleExtract (env : Env) (url : String) (scripts : List Json)
    (sitePatterns profDom microdata dom regexd : Rec)
    (retrievedAt : String) : JobRecord :=
  let jsonLd := extractJsonLd env scripts
  let mf := extractorMerge (mergeSrcs env scripts sitePatterns profDom
    microdata dom regexd)
  let data := enhanceJobData env url mf.1
  validateAndRepair data url retrievedAt
    (primaryMethod jsonLd sitePatterns profDom)
    (methodConfidence jsonLd sitePatterns profDom) mf.2

/-! ## `JobScraper._merge_extraction_data` (src/tools/job_scraper.py)

The Python outer loop walks `all_fields`; the handling of each field is
independent of every other field, so the translation is given per field.
Scalar fields take the first *truthy* value across the priority-ordered
sources; list fields union the items of every truthy source. -/

/-- The first source whose record has a truthy value for the field, together
with the source name (`tr` is Python truthiness at the field's type:
non-empty for strings, always true for a present salary object). -/
def jsFirstTruthy {α : Type} (tr : α → Bool) (srcs : List (Rec × String))
    (f : Rec → Option α) : Option (α × String) :=
  match srcs with
  | [] => none
  | (r, nm) :: rest =>
    match f r with
    | some v => if tr v then some (v, nm) else jsFirstTruthy tr rest f
    | none => jsFirstTruthy tr rest f

/-- Union of a list field across all sources in order, with per-item
deduplication. -/
def jsListMerge (srcs : List (Rec × String)) (f : Rec → List String) :
    List String :=
  srcs.foldl (fun acc p => listUnion acc (f p.1)) []

/-- `field_sources` entry for a list field: the first source with a non-empty
list. -/
def jsListSource (srcs : List (Rec × String)) (f : Rec → List String) :
    Option String :=
  (srcs.find? (fun p => !(f p.1).isEmpty)).map (·.2)

/-- `JobScraper._merge_extraction_data` over the priority-ordered sources
(JSON-LD, microdata, DOM, regex). -/
def jsMerge (srcs : List (Rec × String)) : Rec × FS :=
  let strT : String → Bool := fun s => s ≠ ""
  let salT : Salary → Bool := fun _ => true
  let pick := fun f => (jsFirstTruthy strT srcs f).map (·.1)
  let pickSrc := fun f => (jsFirstTruthy strT srcs f).map (·.2)
  ({ title := pick Rec.title,
     company := pick Rec.company,
     req_id := pick Rec.req_id,
     team := pick Rec.team,
     level := pick Rec.level,
     location := pick Rec.location,
     employment_type := pick Rec.employment_type,
     posted_date := pick Rec.posted_date,
     description := pick Rec.description,
     apply_url := pick Rec.apply_url,
     salary := (jsFirstTruthy salT srcs Rec.salary).map (·.1),
     responsibilities := jsListMerge srcs Rec.responsibilities,
     qualifications := jsListMerge srcs Rec.qualifications,
     skills := jsListMerge srcs Rec.skills,
     benefits := jsListMerge srcs Rec.benefits },
   { title := pickSrc Rec.title,
     company := pickSrc Rec.company,
     req_id := pickSrc Rec.req_id,
     team := pickSrc Rec.team,
     level := pickSrc Rec.level,
     location := pickSrc Rec.location,
     employment_type := pickSrc Rec.employment_type,
     posted_date := pickSrc Rec.posted_date,
     description := pickSrc Rec.description,
     apply_url := pickSrc Rec.apply_url,
     salary := (jsFirstTruthy salT srcs Rec.salary).map (·.2),
     responsibilities := jsListSource srcs Rec.responsibilities,
     qualifications := jsListSource srcs Rec.qualifications,
     skills := jsListSource srcs Rec.skills,
     benefits := jsListSource srcs Rec.benefits })

/-! ## `JobScraper._validate_and_repair` (dict-repair portion)

Lines 691-748 of src/tools/job_scraper.py: the title/company/description
repairs on the extracted dict, each appending a warning.  The subsequent
dataclass construction and JSON-schema validation are not modelled (no claim
touches them). -/

/-- `re.sub(r'^(www\.|jobs\.|careers\.)', '', hostname)` (case-sensitive,
anchored, hence at most one substitution). -/
def stripHostHead (h : String) : String :=
  if isPrefixL "www.".toList h.toList then String.mk (h.toList.drop 4)
  else if isPrefixL "jobs.".toList h.toList then String.mk (h.toList.drop 5)
  else if isPrefixL "careers.".toList h.toList then String.mk (h.toList.drop 8)
  else h

/-- The company guess of `JobScraper._validate_and_repair`: strip the common
prefix, take the label before the first dot, title-case. -/
def jsCompanyGuess (hostname : String) : String :=
  pyTitle ((splitOnChar '.' (stripHostHead hostname)).headD "")

/-- The description synthesis of `JobScraper._validate_and_repair`: bullet
lists from responsibilities/qualifications (first 10 each) joined by blank
lines, else a minimal templated sentence. -/
def jsSynthesizeDescription (data : Rec) (company title : String)
    (w : List String) : String × List String :=
  if data.responsibilities ≠ [] ∨ data.qualifications ≠ [] then
    let respPart : List String :=
      if data.responsibilities ≠ [] then
        ["Responsibilities:\n" ++ joinSep "\n"
          ((data.responsibilities.take 10).map (fun r => "• " ++ r))]
      else []
    let qualPart : List String :=
      if data.qualifications ≠ [] then
        ["Qualifications:\n" ++ joinSep "\n"
          ((data.qualifications.take 10).map (fun q => "• " ++ q))]
      else []
    (joinSep "\n\n" (respPart ++ qualPart),
     w ++ ["Description generated from extracted lists"])
  else
    ("Job opening at " ++ company ++ " for " ++ title,
     w ++ ["Description missing, used minimal default"])

/-- `JobScraper._validate_and_repair`, dict portion: returns the repaired
record plus the warning list (initial warnings = the provenance warnings the
data carried). -/
def jsRepairTitle (title description : Option String) (w : List String) :
    String × List String :=
  if truthyStr title then ((title.getD ""), w)
  else
    match description with
    | some d =>
      if d ≠ "" then
        let firstLine := trimStr ((splitOnChar '\n' d).headD "")
        if firstLine.length < 100 then
          (firstLine, w ++ ["Title extracted from description first line"])
        else ("Job Opening", w ++ ["Title missing, used default"])
      else ("Job Opening", w ++ ["Title missing, used default"])
    | none => ("Job Opening", w ++ ["Title missing, used default"])

def jsRepairCompany (company : Option String) (sourceUrl : String)
    (w : List String) : String × List String :=
  if truthyStr company then ((company.getD ""), w)
  else
    let hostname := pyHostname sourceUrl
    if hostname ≠ "" then
      let guess := jsCompanyGuess hostname
      if guess ≠ "" ∧ guess.length > 2 then
        (guess, w ++ ["Company name guessed from URL: " ++ guess])
      else ("Unknown Company", w ++ ["Company name missing, used default"])
    else ("Unknown Company", w ++ ["Company name missing, used default"])

def jsRepairDescription (data : Rec) (company title : String)
    (w : List String) : String × List String :=
  match data.description with
  | some d =>
    if d ≠ "" ∧ 50 ≤ d.length then (d, w)
    else jsSynthesizeDescription data company title w
  | none => jsSynthesizeDescription data company title w

def jsValidateRepair (data : Rec) (sourceUrl : String)
    (warnings0 : List String) : Rec × List String :=
  let p1 := jsRepairTitle data.title data.description warnings0
  let p2 := jsRepairCompany data.company sourceUrl p1.2
  let p3 := jsRepairDescription data p2.1 p1.1 p2.2
  ({ data with
      title := some p1.1,
      company := some p2.1,
      description := some p3.1 }, p3.2)

/-! ## The response classifier (`AntiBot`, src/server/app/utils/antibot.py) -/

/-- ASCII apostrophe (the marker list contains one). -/
def apos : String := (Char.ofNat 39).toString

/-- `AntiBot.BLOCK_MARKERS`, in source order. -/
def blockMarkers : List String :=
  ["checking your browser before accessing", "cloudflare", "ray id:", "cf-ray",
   "ddos protection", "attention required", "security check",
   "captcha", "recaptcha", "hcaptcha", "are you a robot", "robot check",
   "verify you are human", "prove you are human", "i" ++ apos ++ "m not a robot",
   "access denied", "forbidden", "error 403", "error 404", "error 429",
   "too many requests", "rate limit", "blocked", "banned",
   "suspicious activity", "automated requests", "unusual traffic",
   "bot detected", "please wait", "temporarily unavailable",
   "please enable javascript", "javascript required", "browser not supported",
   "session expired", "cookie required", "please refresh",
   "challenge", "verification", "solve puzzle", "complete verification"]

/-- Python `min(x, y)` on the confidence scale. -/
def qmin (a b : Nat) : Nat := if a ≤ b then a else b

/-- Per-marker confidence increment of `detect_blocking`.

Confidence scores are exact decimal fractions in the source (`0.2`, `0.3`,
`0.9`, …); they are modelled in *hundredths* as `Nat` (so `0.3 ↦ 30`,
`1.0 ↦ 100`), which keeps every comparison exact and kernel-computable. -/
def markerWeight (m : String) : Nat :=
  if m ∈ ["cloudflare", "captcha", "recaptcha"] then 30
  else if m ∈ ["access denied", "forbidden", "blocked"] then 40
  else 20

/-- The classifier's verdict (`block_info` dict, always with
`blocked=True` when returned). -/
structure BlockInfo : Type where
  btype : String
  /-- In hundredths (`0.9 ↦ 90`). -/
  confidence : Nat
  markers : List String
  action : String
deriving DecidableEq, Repr

/-- `AntiBot._classify_block_type` (the html argument of the source is
unused). -/
def classifyBlockType (markers : List String) : String :=
  if markers.any (fun m => m ∈ ["cloudflare", "cf-ray", "ray id"]) then
    "cloudflare"
  else if markers.any (fun m => m ∈ ["captcha", "recaptcha", "hcaptcha"]) then
    "captcha"
  else if markers.any (fun m => m ∈ ["access denied", "forbidden", "error 403"]) then
    "access_control"
  else if markers.any (fun m => m ∈ ["rate limit", "too many requests", "error 429"]) then
    "rate_limiting"
  else if markers.any (fun m => m ∈ ["javascript required", "please enable javascript"]) then
    "javascript_challenge"
  else "generic_block"

/-- `AntiBot._get_suggested_action`. -/
def suggestedAction (blockType : String) : String :=
  if blockType = "cloudflare" then "use_browser_automation"
  else if blockType = "captcha" then "use_captcha_solver"
  else if blockType = "access_control" then "retry_with_different_ip"
  else if blockType = "rate_limiting" then "wait_and_retry"
  else if blockType = "javascript_challenge" then "use_browser_automation"
  else if blockType = "generic_block" then "retry_with_different_strategy"
  else "retry"

/-- `AntiBot._detect_javascript_challenge`. -/
def detectJsChallenge (html : String) : Bool :=
  let l := lowerStr html
  ["please enable javascript", "javascript is required", "javascript disabled",
   "noscript", "document.cookie", "__cf_chl_jschl_tk__",
   "window.location.reload"].any (fun p => containsStr l p)

/-- `AntiBot.detect_blocking`.  `hp` models `_detect_honeypot` (a
BeautifulSoup count of hidden/invisible elements); every theorem quantifies
over it. -/
def detectBlocking (hp : String → Bool) (html : String) (status : Nat) :
    Option BlockInfo :=
  if status = 403 ∨ status = 429 ∨ status = 503 then
    some { btype := "http_status", confidence := 90,
           markers := ["HTTP " ++ toString status],
           action := "retry_with_different_ip" }
  else if 400 ≤ status then
    some { btype := "http_error", confidence := 70,
           markers := ["HTTP " ++ toString status], action := "retry" }
  else if (trimStr html).length < 100 then
    some { btype := "empty_response", confidence := 80,
           markers := ["empty_or_minimal_content"],
           action := "retry_with_browser" }
  else
    let htmlLower := lowerStr html
    let scan := blockMarkers.foldl
      (fun (acc : List String × Nat) m =>
        if containsStr htmlLower m then (acc.1 ++ [m], acc.2 + markerWeight m)
        else acc)
      ([], 0)
    if scan.1 ≠ [] then
      let btype := classifyBlockType scan.1
      some { btype := btype, confidence := qmin scan.2 100,
             markers := scan.1, action := suggestedAction btype }
    else if detectJsChallenge html then
      some { btype := "javascript_challenge", confidence := 80,
             markers := ["javascript_required"],
             action := "use_browser_automation" }
    else if hp html then
      some { btype := "honeypot", confidence := 60,
             markers := ["honeypot_detected"],
             action := "avoid_suspicious_elements" }
    else none

/-! ## The fetch state machine (`IPRotationManager`,
src/server/app/utils/advanced_fetch.py)

Timing is modelled explicitly: each call carries the clock value `now`;
`asyncio.sleep` is idealized as waking exactly at its deadline, and each
underlying fetch attempt has an oracle-supplied duration.  The per-attempt
executors (direct/proxy/tor/…) are network I/O and enter as the oracle
`attempt`; the stealth-browser fallback enters as `stealth`.  The global
`request_count`/Tor-rotation bookkeeping and the `except` arm of the retry
loop (executor exceptions, backoff `1.0 + attempt*0.5`) are not modelled:
the modelled executors are total, as the source's `_fetch_direct` and friends
catch their own exceptions and return `("", 0)`. -/

/-- The module-level response cache `_CACHE : url ↦ (timestamp, html, status)`
(duplicate-free association list).  Clock values are modelled in integer
*milliseconds* (`Int`): every timing constant of the source (`1.5` s rate
interval, `10` s TTL, `(attempt+1)*2.0` s backoff) is integral at that
scale. -/
abbrev Cache := List (String × (Int × String × Nat))

/-- Remove a key from an association list (`dict.pop(key, None)`). -/
def removeKey {α : Type} (c : List (String × α)) (k : String) :
    List (String × α) :=
  c.filter (fun p => p.1 ≠ k)

/-- `IPRotationManager._cache_get`: serve a fresh entry, discard a stale one.
Returns the hit (if any) and the updated cache. -/
def cacheGet (ttl now : Int) (c : Cache) (url : String) :
    Option (String × Nat) × Cache :=
  match alookup c url with
  | none => (none, c)
  | some (ts, h, s) =>
    if now - ts ≤ ttl then (some (h, s), c) else (none, removeKey c url)

/-- `IPRotationManager._cache_put`. -/
def cachePut (now : Int) (c : Cache) (url html : String) (status : Nat) : Cache :=
  (url, (now, html, status)) :: removeKey c url

/-- `IPRotationManager._respect_rate_limit` under the idealized clock: the
returned value is both the instant the caller resumes and the timestamp
recorded in `_LAST_HIT`. -/
def respectRateLimit (delay now last : Int) : Int :=
  if now - last < delay then now + (delay - (now - last)) else now

/-- The third component of a `fetch_with_rotation` result: the cache-hit path
returns the classifier's `block_info` dict, the exhausted-retries path the
`last_error` string. -/
inductive BlockedReason : Type where
  | info : BlockInfo → BlockedReason
  | msg : String → BlockedReason
deriving DecidableEq, Repr

/-- Python truthiness of the blocked-reason slot (a returned `block_info`
dict is always non-empty). -/
def truthyBlocked : Option BlockedReason → Bool
  | none => false
  | some (.info _) => true
  | some (.msg s) => s ≠ ""

/-- The oracles a `fetch_with_rotation` run consumes. -/
structure FetchEnv : Type where
  /-- `AntiBot._detect_honeypot`. -/
  hp : String → Bool
  /-- The executor chosen for attempt `i` (html, status). -/
  attempt : Nat → String × Nat
  /-- Wall-clock duration of attempt `i`, in ms. -/
  attemptDur : Nat → Int
  /-- The stealth-browser fallback result. -/
  stealth : String × Nat
  /-- Wall-clock duration of the stealth fallback, in ms. -/
  stealthDur : Int
  /-- The strategy list computed by `_get_fetch_strategies`. -/
  strategies : List String

/-- `strategies[attempt % len(strategies)]`. -/
def stratAt (strategies : List String) (i : Nat) : String :=
  strategies.getD (i % strategies.length) "direct"

/-- The inter-attempt backoff `(attempt+1)*2.0` s (in ms), applied only when
further attempts remain (`attempt < max_retries - 1`). -/
def interDelay (fuelRest i : Nat) : Int :=
  if fuelRest = 0 then 0 else (i + 1 : Int) * 2000

/-- Outcome of one `fetch_with_rotation` call: the returned triple, the cache
afterwards, the number of underlying fetch attempts issued, and the instant
each of them started. -/
structure FetchOut : Type where
  html : String
  status : Nat
  blocked : Option BlockedReason
  cache : Cache
  fetches : Nat
  starts : List Int
deriving DecidableEq, Repr

/-- The retry loop of `fetch_with_rotation` (`for attempt in
range(max_retries)`), with `fuel` the remaining iterations and `i` the
attempt index. -/
def fetchLoop (env : FetchEnv) (url : String) :
    Nat → Nat → Int → Cache → Option String → FetchOut
  | 0, _, _, c, lastErr => ⟨"", 0, lastErr.map .msg, c, 0, []⟩
  | fuel + 1, i, t, c, lastErr =>
    let h := (env.attempt i).1
    let s := (env.attempt i).2
    let d := env.attemptDur i
    let block := detectBlocking env.hp h s
    if block.isNone ∧ h ≠ "" then
      ⟨h, s, none, cachePut (t + d) c url h s, 1, [t]⟩
    else
      match block with
      | some b =>
        if b.action = "use_browser_automation" ∧
            stratAt env.strategies i ≠ "stealth_browser" then
          let h2 := env.stealth.1
          let s2 := env.stealth.2
          if h2 ≠ "" ∧ 1000 < h2.length then
            ⟨h2, s2, none, cachePut (t + d + env.stealthDur) c url h2 s2, 2,
             [t, t + d]⟩
          else
            let rest := fetchLoop env url fuel (i + 1)
              (t + d + env.stealthDur + interDelay fuel i) c (some b.btype)
            ⟨rest.html, rest.status, rest.blocked, rest.cache,
             rest.fetches + 2, t :: (t + d) :: rest.starts⟩
        else
          let rest := fetchLoop env url fuel (i + 1)
            (t + d + interDelay fuel i) c (some b.btype)
          ⟨rest.html, rest.status, rest.blocked, rest.cache,
           rest.fetches + 1, t :: rest.starts⟩
      | none =>
        let rest := fetchLoop env url fuel (i + 1)
          (t + d + interDelay fuel i) c lastErr
        ⟨rest.html, rest.status, rest.blocked, rest.cache,
         rest.fetches + 1, t :: rest.starts⟩

/-- `IPRotationManager.fetch_with_rotation`: cache check, per-host rate
limiting, then the retry loop.  Also returns the updated `_LAST_HIT` map. -/
def fetchWithRotation (env : FetchEnv) (now : Int) (cache : Cache)
    (lastHit : List (String × Int)) (url : String) (maxRetries : Nat) :
    FetchOut × List (String × Int) :=
  let cg := cacheGet 10000 now cache url
  match cg.1 with
  | some hs =>
    (⟨hs.1, hs.2, (detectBlocking env.hp hs.1 hs.2).map .info, cg.2, 0, []⟩,
     lastHit)
  | none =>
    let host := pyNetloc url
    let wake := respectRateLimit 1500 now ((alookup lastHit host).getD 0)
    (fetchLoop env url maxRetries 0 wake cg.2 none,
     (host, wake) :: removeKey lastHit host)

/-! ## The acquisition boundary (`extract_job_advanced`,
src/server/app/utils/advanced_extractor.py) -/

/-- Python exceptions crossing the function boundary. -/
inductive PyErr : Type where
  | valueError : String → PyErr
  | runtimeError : String → PyErr
deriving DecidableEq, Repr

/-- The interpolation `f"{blocked_reason or f'HTTP {status}'}"`.  The `repr`
of a `block_info` dict is abbreviated; no theorem depends on it. -/
def blockedReasonStr (br : Option BlockedReason) (status : Nat) : String :=
  match br with
  | some (.msg s) => if s ≠ "" then s else "HTTP " ++ toString status
  | some (.info _) => "{...}"
  | none => "HTTP " ++ toString status

/-- `extract_job_advanced(url, max_retries)`.  `fetched` is the triple
returned by `manager.fetch_with_rotation`; `parse` is
`job_parser.parse_job_from_html`.  A raised (and, inside the `try`, re-raised)
exception is an `Except.error`. -/
def extractJobAdvanced (parse : String → String → Rec) (url : String)
    (fetched : String × Nat × Option BlockedReason) : Except PyErr Rec :=
  if trimStr url = "" then .error (.valueError "URL is required")
  else
    let u := trimStr url
    let html := fetched.1
    let status := fetched.2.1
    let br := fetched.2.2
    if html = "" ∨ truthyBlocked br then
      .error (.runtimeError ("Job extraction failed: Failed to fetch " ++ u ++
        ": " ++ blockedReasonStr br status))
    else
      let jd := parse u html
      let jd := if truthyStr jd.title then jd else { jd with title := some "Job" }
      let jd := if truthyStr jd.description then jd
                else { jd with description := some "" }
      .ok jd

/-! ## The regex-fallback salary parser
(`SimpleJobExtractor._extract_regex`, salary branch)

The source applies `re.search` with the pattern

```
\$?(\d{1,3}(?:,\d{3})*(?:\.\d{2})?)\s*(?:k|K|thousand)?\s*(?:-|to)\s*
\$?(\d{1,3}(?:,\d{3})*(?:\.\d{2})?)\s*(?:k|K|thousand)?\s*(?:per\s+)?
(year|annual|hour|month)?
```

under `re.IGNORECASE`.  The matcher below enumerates candidate matches of
this exact pattern in Python's backtracking priority order (leftmost
position first; at a position, each quantifier greedy, alternatives in
written order), so its first candidate is the `re.search` match.  `\s` is
modelled by `Char.isWhitespace` (space/tab/CR/LF; Python additionally
accepts `\f`/`\v`, which none of the analysed inputs contain). -/

/-- Case-insensitive literal prefix (`pat` given lower-case). -/
def ipfx (pat : List Char) (cs : List Char) : Option (List Char) :=
  if isPrefixL pat ((cs.take pat.length).map Char.toLower) then
    some (cs.drop pat.length)
  else none

/-- `\s*`: remaining inputs after consuming a run of whitespace, longest
first (greedy with backtracking). -/
def wsCands (cs : List Char) : List (List Char) :=
  let run := (cs.takeWhile Char.isWhitespace).length
  (List.range (run + 1)).reverse.map (fun i => cs.drop i)

/-- `\s+`: like `wsCands` but requiring at least one character. -/
def wsCands1 (cs : List Char) : List (List Char) :=
  let run := (cs.takeWhile Char.isWhitespace).length
  ((List.range run).map (fun i => i + 1)).reverse.map (fun i => cs.drop i)

/-- `\d{1,3}` greedy: capture/rest pairs for 3, 2, 1 digits. -/
def digitsCands (cs : List Char) : List (List Char × List Char) :=
  ([3, 2, 1].filter (fun n => (cs.take n).length = n ∧
      (cs.take n).all Char.isDigit)).map
    (fun n => (cs.take n, cs.drop n))

/-- `(?:,\d{3})*` greedy: capture/rest pairs, most groups first. -/
def commaGroupCands : List Char → List (List Char × List Char)
  | ',' :: d1 :: d2 :: d3 :: rest =>
    if d1.isDigit ∧ d2.isDigit ∧ d3.isDigit then
      ((commaGroupCands rest).map
        (fun p => ([',', d1, d2, d3] ++ p.1, p.2))) ++
      [([], ',' :: d1 :: d2 :: d3 :: rest)]
    else [([], ',' :: d1 :: d2 :: d3 :: rest)]
  | cs => [([], cs)]

/-- `(?:\.\d{2})?` greedy. -/
def centsCands : List Char → List (List Char × List Char)
  | '.' :: a :: b :: rest =>
    if a.isDigit ∧ b.isDigit then [(['.', a, b], rest), ([], '.' :: a :: b :: rest)]
    else [([], '.' :: a :: b :: rest)]
  | cs => [([], cs)]

/-- A full capture group `\d{1,3}(?:,\d{3})*(?:\.\d{2})?`. -/
def numberCands (cs : List Char) : List (List Char × List Char) :=
  digitsCands cs |>.flatMap fun p1 =>
    commaGroupCands p1.2 |>.flatMap fun p2 =>
      centsCands p2.2 |>.map fun p3 => (p1.1 ++ p2.1 ++ p3.1, p3.2)

/-- `\$?` greedy. -/
def dollarCands (cs : List Char) : List (List Char) :=
  match cs with
  | '$' :: rest => [rest, '$' :: rest]
  | _ => [cs]

/-- `(?:k|K|thousand)?` greedy (under `IGNORECASE` the first branch already
matches both cases). -/
def kCands (cs : List Char) : List (List Char) :=
  (match cs with
   | c :: rest => if c = 'k' ∨ c = 'K' then [rest, rest] else []
   | [] => []) ++
  (match ipfx "thousand".toList cs with
   | some rest => [rest]
   | none => []) ++ [cs]

/-- `(?:-|to)` (mandatory). -/
def dashCands (cs : List Char) : List (List Char) :=
  (match cs with
   | '-' :: rest => [rest]
   | _ => []) ++
  (match ipfx "to".toList cs with
   | some rest => [rest]
   | none => [])

/-- `(?:per\s+)?` greedy. -/
def perCands (cs : List Char) : List (List Char) :=
  (match ipfx "per".toList cs with
   | some r1 => wsCands1 r1
   | none => []) ++ [cs]

/-- `(year|annual|hour|month)?` greedy; the capture keeps the original
casing, as `re` does. -/
def unitCands (cs : List Char) : List (Option (List Char) × List Char) :=
  (["year", "annual", "hour", "month"].flatMap fun w =>
    match ipfx w.toList cs with
    | some rest => [(some (cs.take w.length), rest)]
    | none => []) ++ [(none, cs)]

/-- One candidate match of the salary pattern. -/
structure SalMatch : Type where
  g1 : List Char
  g2 : List Char
  g3 : Option (List Char)
  raw : List Char
deriving DecidableEq, Repr

/-- All matches of the salary pattern anchored at the start of `cs0`, in
backtracking priority order. -/
def matchSalaryAt (cs0 : List Char) : List SalMatch :=
  dollarCands cs0 |>.flatMap fun r1 =>
  numberCands r1 |>.flatMap fun p1 =>
  wsCands p1.2 |>.flatMap fun r3 =>
  kCands r3 |>.flatMap fun r4 =>
  wsCands r4 |>.flatMap fun r5 =>
  dashCands r5 |>.flatMap fun r6 =>
  wsCands r6 |>.flatMap fun r7 =>
  dollarCands r7 |>.flatMap fun r8 =>
  numberCands r8 |>.flatMap fun p2 =>
  wsCands p2.2 |>.flatMap fun r10 =>
  kCands r10 |>.flatMap fun r11 =>
  wsCands r11 |>.flatMap fun r12 =>
  perCands r12 |>.flatMap fun r13 =>
  unitCands r13 |>.map fun p3 =>
    ⟨p1.1, p2.1, p3.1, cs0.take (cs0.length - p3.2.length)⟩

/-- `re.search`: first match position from the left, then the backtracking
priority order decides. -/
def salarySearchGo : List Char → Option SalMatch
  | [] =>
    (matchSalaryAt []).head?
  | c :: rest =>
    match (matchSalaryAt (c :: rest)).head? with
    | some m => some m
    | none => salarySearchGo rest

def salarySearch (text : String) : Option SalMatch :=
  salarySearchGo text.toList

/-- `float(group.replace(",", ""))` for a capture of the number group (always
parseable digits with optional two-digit cents). -/
def digitsToNat (l : List Char) : Nat :=
  l.foldl (fun a c => a * 10 + (c.toNat - 48)) 0

def parseMoney (cap : List Char) : Nat :=
  let noComma := cap.filter (fun c => c ≠ ',')
  let intPart := noComma.takeWhile Char.isDigit
  match noComma.drop intPart.length with
  | '.' :: frac => digitsToNat intPart * 100 + digitsToNat frac
  | _ => digitsToNat intPart * 100

/-- `\w` of Python `re` (ASCII portion). -/
def isWordChar (c : Char) : Bool := c.isAlphanum ∨ c = '_'

/-- The pay-unit words of the salary-hint regex. -/
def payUnitWords : List String :=
  ["per", "hour", "year", "annual", "month", "salary", "compensation", "pay"]

/-- One word with `\b` boundaries at the current position. -/
def boundaryWordAt (w : List Char) (prev : Option Char) (cs : List Char) :
    Bool :=
  (match prev with
   | none => true
   | some p => ¬ isWordChar p) &&
  isPrefixL w cs &&
  (match cs.drop w.length with
   | [] => true
   | a :: _ => ¬ isWordChar a)

/-- `re.search(r"\b(per|hour|year|annual|month|salary|compensation|pay)\b",
raw, IGNORECASE)` as a Boolean (applied to the lower-cased characters). -/
def unitWordSearchGo (prev : Option Char) : List Char → Bool
  | [] => payUnitWords.any (fun w => boundaryWordAt w.toList prev [])
  | c :: rest =>
    payUnitWords.any (fun w => boundaryWordAt w.toList prev (c :: rest)) ||
    unitWordSearchGo (some c) rest

def hasUnitWord (raw : String) : Bool :=
  unitWordSearchGo none (lowerChars raw.toList)

/-- The salary-hint gate of `_extract_regex`:
`"$" in raw or "usd" in raw.lower() or "k" in raw.lower() or` the pay-unit
word search. -/
def hasHint (raw : String) : Bool :=
  containsStr raw "$" || containsStrI raw "usd" || containsStrI raw "k" ||
    hasUnitWord raw

/-- The salary branch of `SimpleJobExtractor._extract_regex` (the skills
branch of the method contributes no salary and is irrelevant to the analysed
claims). -/
def extractRegexSalary (text : String) : Option Salary :=
  match salarySearch text with
  | none => none
  | some m =>
    let raw := String.mk m.raw
    if hasHint raw then
      let kMult := containsStrI raw "k"
      let minS := if kMult then parseMoney m.g1 * 1000 else parseMoney m.g1
      let maxS := if kMult then parseMoney m.g2 * 1000 else parseMoney m.g2
      let period := match m.g3 with
        | some g => String.mk g
        | none => "yearly"
      let periodOut :=
        if lowerStr period = "year" ∨ lowerStr period = "annual" then "yearly"
        else if lowerStr period = "hour" then "hourly"
        else "yearly"
      some ⟨minS, maxS, "USD", periodOut⟩
    else none

/-- The salary branch of `JobScraper._extract_regex_fallbacks`: the identical
salary pattern, but with NO hint gate — every match populates the salary —
and a missing unit word falls through `period.lower() in ["year", "annual"]`
to `"hourly"` (the `or "yearly"` default string is not in that list). -/
def jsExtractRegexSalary (text : String) : Option Salary :=
  match salarySearch text with
  | none => none
  | some m =>
    let raw := String.mk m.raw
    let kMult := containsStrI raw "k"
    let minS := if kMult then parseMoney m.g1 * 1000 else parseMoney m.g1
    let maxS := if kMult then parseMoney m.g2 * 1000 else parseMoney m.g2
    let period := match m.g3 with
      | some g => String.mk g
      | none => "yearly"
    let periodOut :=
      if lowerStr period = "year" ∨ lowerStr period = "annual" then "yearly"
      else "hourly"
    some ⟨minS, maxS, "USD", periodOut⟩

/-! ## Characterization helpers and specification-side definitions -/

/-- First `some` in a list of options (characterizes the scalar merge of
`SimpleJobExtractor._merge`: first non-`None` value in priority order). -/
def firstSome {α : Type} : List (Option α) → Option α
  | [] => none
  | x :: t => x.orElse (fun _ => firstSome t)

/-- The method name recorded for a scalar field: the first source whose
record carries the field. -/
def firstSomeName {α : Type} (f : Rec → Option α)
    (srcs : List (Rec × String)) : Option String :=
  (srcs.find? (fun p => (f p.1).isSome)).map (·.2)

/-- Specification-side definition, following the spec's words: the *first
non-empty* value among the per-method values of a scalar field (this is what
the spec asserts the merge computes; compare with `firstSome`). -/
def specFirstNonEmpty : List (Option String) → Option String
  | [] => none
  | some v :: t => if v ≠ "" then some v else specFirstNonEmpty t
  | none :: t => specFirstNonEmpty t

/-! ## Concrete fixtures used by counterexamples and witnesses -/

/-- An environment with inert I/O helpers. -/
def envId : Env := ⟨fun _ => none, id⟩

/-- A `JobPosting`-typed JSON-LD item with no further fields. -/
def jpEmpty : Json := .obj [("@type", .str "JobPosting")]

/-- A `JobPosting`-typed JSON-LD item with title and hiring organization. -/
def jpAcme : Json :=
  .obj [("@type", .str "JobPosting"), ("title", .str "Backend Engineer"),
        ("hiringOrganization", .obj [("name", .str "Acme")])]

/-- A 121-character page whose only block marker is `captcha`. -/
def htmlCaptcha : String :=
  String.mk (List.replicate 90 'x') ++ "  captcha  " ++
    String.mk (List.replicate 20 'x')

/-- A 124-character page whose only block marker is `cloudflare`. -/
def htmlCloudflare : String :=
  String.mk (List.replicate 90 'x') ++ "  cloudflare  " ++
    String.mk (List.replicate 20 'x')

/-- A 120-character page with no block markers at all. -/
def htmlPlain : String := String.mk (List.replicate 120 'x')

/-- Fetch oracles that always hit a Cloudflare interstitial and whose stealth
fallback returns nothing, with zero durations. -/
def envBlockedFetch : FetchEnv :=
  ⟨fun _ => false, fun _ => (htmlCloudflare, 200), fun _ => 0, ("", 0), 0,
   ["proxy", "direct"]⟩

/-- Fetch oracles that succeed immediately with a plain page. -/
def envPlainFetch : FetchEnv :=
  ⟨fun _ => false, fun _ => (htmlPlain, 200), fun _ => 0, ("", 0), 0,
   ["proxy", "direct"]⟩

/-- Method records where the highest-priority method reports an *empty*
title and a lower-priority method a real one. -/
def cexSrcs : List (Rec × String) :=
  [({ title := some "" }, "json-ld"), ({}, "site-patterns"),
   ({}, "profiles"), ({ title := some "X" }, "microdata"),
   ({}, "dom"), ({}, "regex")]

/-! # Theorems -/

/-! ## Generic helper lemmas -/

theorem alookup_mem {α : Type} :
    ∀ (l : List (String × α)) (k : String) (v : α),
      alookup l k = some v → (k, v) ∈ l := by
  intro l
  induction l with
  | nil => intro k v h; simp [alookup] at h
  | cons p t ih =>
    intro k v h
    cases p with
    | mk k1 v1 =>
      simp only [alookup] at h
      split at h
      · next heq =>
        cases h
        subst heq
        exact List.mem_cons_self _ _
      · exact List.mem_cons_of_mem _ (ih k v h)

theorem etMap_values_canonical :
    ∀ p ∈ employmentTypeMap, p.2 ∈ canonicalEmploymentTypes := by decide

/-- Packaging of the four action implications from their per-type cases. -/
theorem action_conj_of (T A : String)
    (hc : T = "cloudflare" → A = "use_browser_automation")
    (hj : T = "javascript_challenge" → A = "use_browser_automation")
    (hca : T = "captcha" → A = "use_captcha_solver")
    (hac : T = "access_control" → A = "retry_with_different_ip")
    (hrl : T = "rate_limiting" → A = "wait_and_retry") :
    ((T = "cloudflare" ∨ T = "javascript_challenge") →
      A = "use_browser_automation") ∧
    (T = "captcha" → A = "use_captcha_solver") ∧
    (T = "access_control" → A = "retry_with_different_ip") ∧
    (T = "rate_limiting" → A = "wait_and_retry") :=
  ⟨fun h => h.elim hc hj, hca, hac, hrl⟩

/-- Each suggested remediation as a function of the block type. -/
theorem suggestedAction_cases (ty : String) :
    ((ty = "cloudflare" ∨ ty = "javascript_challenge") →
      suggestedAction ty = "use_browser_automation") ∧
    (ty = "captcha" → suggestedAction ty = "use_captcha_solver") ∧
    (ty = "access_control" → suggestedAction ty = "retry_with_different_ip") ∧
    (ty = "rate_limiting" → suggestedAction ty = "wait_and_retry") := by
  refine ⟨?_, ?_, ?_, ?_⟩
  · rintro (rfl | rfl) <;> decide
  · rintro rfl; decide
  · rintro rfl; decide
  · rintro rfl; decide

/-! ## Claim C8 — employment-type normalization -/

/-- Claim C8 (amended): the employment-type normalizer is a total
deterministic function whose value is always `null` or one of the six
canonical values, and the aliases `"full time"`, `"fulltime"` (and their
case variants, e.g. `"Full Time"`) normalize to `full-time`.  The alias
`"FULL_TIME"` does *not* (see the counterexample). -/
theorem employment_type_total_closed :
    (∀ s : String, normalizeEmploymentType s = none ∨
      ∃ v, normalizeEmploymentType s = some v ∧
        v ∈ canonicalEmploymentTypes) ∧
    normalizeEmploymentType "full time" = some "full-time" ∧
    normalizeEmploymentType "fulltime" = some "full-time" ∧
    normalizeEmploymentType "Full Time" = some "full-time" := by
  refine ⟨?_, by decide, by decide, by decide⟩
  intro s
  by_cases h0 : trimStr (lowerStr s) = ""
  · left; simp [normalizeEmploymentType, h0]
  · cases hl : alookup employmentTypeMap (trimStr (lowerStr s)) with
    | some v =>
      right
      refine ⟨v, ?_, etMap_values_canonical _ (alookup_mem _ _ _ hl)⟩
      simp [normalizeEmploymentType, h0, hl]
    | none =>
      by_cases hc : trimStr (lowerStr s) ∈ canonicalEmploymentTypes
      · right
        exact ⟨_, by simp [normalizeEmploymentType, h0, hl, hc], hc⟩
      · left; simp [normalizeEmploymentType, h0, hl, hc]

/-- Claim C8 (counterexample): the claim asserts `"FULL_TIME"` normalizes to
`full-time`; the alias table has no underscore entries and `"full_time"` is
not canonical, so the normalizer returns `null`. -/
theorem employment_type_underscore_fails :
    normalizeEmploymentType "FULL_TIME" = none ∧
    (none : Option String) ≠ some "full-time" := ⟨by decide, by decide⟩

/-! ## Claim C7 — block-type → remediation mapping -/

/-- Claim C7 (amended): the classifier maps each block type to exactly one
suggested action; `cloudflare` and `javascript_challenge` map to browser
automation and `access_control` to retrying with a different IP (identity),
but `captcha` maps to the captcha solver and `rate_limiting` to
wait-and-retry — not as the claim stated. -/
theorem block_type_action_mapping :
    ∀ (hp : String → Bool) (html : String) (status : Nat) (b : BlockInfo),
      detectBlocking hp html status = some b →
      ((b.btype = "cloudflare" ∨ b.btype = "javascript_challenge") →
        b.action = "use_browser_automation") ∧
      (b.btype = "captcha" → b.action = "use_captcha_solver") ∧
      (b.btype = "access_control" → b.action = "retry_with_different_ip") ∧
      (b.btype = "rate_limiting" → b.action = "wait_and_retry") := by
  intro hp html status b h
  simp only [detectBlocking] at h
  split at h
  · cases h
    exact action_conj_of _ _ (by intro hx; simp at hx)
      (by intro hx; simp at hx) (by intro hx; simp at hx)
      (by intro hx; simp at hx) (by intro hx; simp at hx)
  · split at h
    · cases h
      exact action_conj_of _ _ (by intro hx; simp at hx)
        (by intro hx; simp at hx) (by intro hx; simp at hx)
        (by intro hx; simp at hx) (by intro hx; simp at hx)
    · split at h
      · cases h
        exact action_conj_of _ _ (by intro hx; simp at hx)
          (by intro hx; simp at hx) (by intro hx; simp at hx)
          (by intro hx; simp at hx) (by intro hx; simp at hx)
      · split at h
        · cases h
          exact suggestedAction_cases _
        · split at h
          · cases h
            exact action_conj_of _ _ (by intro hx; simp at hx)
              (fun _ => rfl) (by intro hx; simp at hx)
              (by intro hx; simp at hx) (by intro hx; simp at hx)
          · split at h
            · cases h
              exact action_conj_of _ _ (by intro hx; simp at hx)
                (by intro hx; simp at hx) (by intro hx; simp at hx)
                (by intro hx; simp at hx) (by intro hx; simp at hx)
            · cases h

set_option maxRecDepth 8192 in
/-- Claim C7 (witness for the amended theorem): the mapping instantiated on a
concrete captcha page. -/
theorem block_type_action_mapping_witness :
    ((("captcha" : String) = "cloudflare" ∨
        ("captcha" : String) = "javascript_challenge") →
      ("use_captcha_solver" : String) = "use_browser_automation") ∧
    (("captcha" : String) = "captcha" →
      ("use_captcha_solver" : String) = "use_captcha_solver") ∧
    (("captcha" : String) = "access_control" →
      ("use_captcha_solver" : String) = "retry_with_different_ip") ∧
    (("captcha" : String) = "rate_limiting" →
      ("use_captcha_solver" : String) = "wait_and_retry") :=
  block_type_action_mapping (fun _ => false) htmlCaptcha 200
    ⟨"captcha", 30, ["captcha"], "use_captcha_solver"⟩ (by decide)

set_option maxRecDepth 8192 in
/-- Claim C7 (counterexample): on a page whose only block marker is
`captcha`, the classified type is `captcha` and the suggested action is
`use_captcha_solver`, not the browser automation the claim asserts. -/
theorem captcha_action_not_browser :
    detectBlocking (fun _ => false) htmlCaptcha 200 =
      some ⟨"captcha", 30, ["captcha"], "use_captcha_solver"⟩ ∧
    ("use_captcha_solver" : String) ≠ "use_browser_automation" :=
  ⟨by decide, by decide⟩

/-! ## Claim C2 — the acquisition boundary -/

/-- Claim C2 (counterexample): the claim asserts the acquisition function
never raises across its boundary; but on a fetch outcome with empty html and
a blocked reason, `extract_job_advanced` raises
`RuntimeError("Job extraction failed: ...")` (modelled as `Except.error`)
rather than returning any structured error value — exactly as its own
docstring documents. -/
theorem acquisition_raises_on_blocked :
    extractJobAdvanced (fun _ _ => {}) "https://example.com/job"
      ("", 0, some (.msg "blocked")) =
    .error (.runtimeError
      "Job extraction failed: Failed to fetch https://example.com/job: blocked")
    := rfl

/-- Claim C2 (amended): `extract_job_advanced` returns job data on success
but *raises* — `ValueError` on a blank URL, and `RuntimeError` whenever the
fetch yields no html or a truthy blocked reason (e.g. after all retries are
exhausted); it never returns a structured error value. -/
theorem acquisition_error_path :
    ∀ (parse : String → String → Rec) (url : String)
      (fetched : String × Nat × Option BlockedReason),
      trimStr url ≠ "" →
      (fetched.1 = "" ∨ truthyBlocked fetched.2.2 = true) →
      ∃ msg, extractJobAdvanced parse url fetched =
        .error (.runtimeError msg) := by
  intro parse url fetched h1 h2
  unfold extractJobAdvanced
  rw [if_neg h1, if_pos h2]
  exact ⟨_, rfl⟩

/-- Claim C2 (witness): the amended theorem at a concrete blocked fetch. -/
theorem acquisition_error_path_witness :
    ∃ msg, extractJobAdvanced (fun _ _ => {}) "https://example.com/job"
      ("", 0, some (.msg "blocked")) = .error (.runtimeError msg) :=
  acquisition_error_path (fun _ _ => {}) "https://example.com/job"
    ("", 0, some (.msg "blocked")) (by decide) (Or.inl rfl)

/-! ## Claim C4 — salary gating in the regex fallback -/

set_option maxRecDepth 16384 in
/-- Claim C4 (counterexample): the claim covers BOTH cited regex fallbacks,
but `JobScraper._extract_regex_fallbacks` has no hint gate: on the date
range `"2025-01-15 to 2025-02-01"` the shared salary pattern matches the
hintless span `"025-01"` (groups `"025"`/`"01"`), and the JobScraper
version populates `salary = {min: 25.0, max: 1.0, currency: "USD",
period: "hourly"}` (amounts in cents) — the claim says this text must
yield no salary. -/
theorem js_regex_salary_ungated :
    (∃ m : SalMatch, salarySearch "2025-01-15 to 2025-02-01" = some m ∧
      hasHint (String.mk m.raw) = false) ∧
    jsExtractRegexSalary "2025-01-15 to 2025-02-01" =
      some ⟨2500, 100, "USD", "hourly"⟩ :=
  ⟨⟨⟨['0', '2', '5'], ['0', '1'], none, ['0', '2', '5', '-', '0', '1']⟩,
    by decide, by decide⟩, by decide⟩

set_option maxRecDepth 16384 in
/-- Claim C4 (amended): `SimpleJobExtractor._extract_regex` populates a
salary only when the matched span passes the salary-hint gate (a currency
marker `$`/`usd`, the letter `k`, or a pay-unit word):
`"$100,000 - $150,000 per year"` yields min/max `100000.0`/`150000.0`
dollars (modelled in cents), currency `USD`, period `yearly`, while the
date range `"2025-01-15 to 2025-02-01"` yields no salary there; but
`JobScraper._extract_regex_fallbacks` applies no gate at all — whenever the
pattern matches, it populates a salary. -/
theorem salary_hint_gate :
    (∀ (text : String) (s : Salary), extractRegexSalary text = some s →
      ∃ m : SalMatch, salarySearch text = some m ∧
        hasHint (String.mk m.raw) = true) ∧
    (∀ (text : String) (m : SalMatch), salarySearch text = some m →
      ∃ s : Salary, jsExtractRegexSalary text = some s) ∧
    extractRegexSalary "$100,000 - $150,000 per year" =
      some ⟨10000000, 15000000, "USD", "yearly"⟩ ∧
    extractRegexSalary "2025-01-15 to 2025-02-01" = none := by
  refine ⟨?_, ?_, by decide, by decide⟩
  · intro text s h
    unfold extractRegexSalary at h
    cases hm : salarySearch text with
    | none => rw [hm] at h; cases h
    | some m =>
      rw [hm] at h
      dsimp only at h
      split at h
      · next hhint => exact ⟨m, rfl, hhint⟩
      · cases h
  · intro text m hm
    unfold jsExtractRegexSalary
    rw [hm]
    exact ⟨_, rfl⟩

/-- Claim C4 (witness): both implications instantiated on the concrete
salary text. -/
theorem salary_hint_gate_witness :
    (∃ m : SalMatch,
      salarySearch "$100,000 - $150,000 per year" = some m ∧
      hasHint (String.mk m.raw) = true) ∧
    (∃ s : Salary,
      jsExtractRegexSalary "$100,000 - $150,000 per year" = some s) :=
  ⟨salary_hint_gate.1 "$100,000 - $150,000 per year"
    ⟨10000000, 15000000, "USD", "yearly"⟩ salary_hint_gate.2.2.1,
   salary_hint_gate.2.1 "$100,000 - $150,000 per year"
    ⟨['1', '0', '0', ',', '0', '0', '0'],
     ['1', '5', '0', ',', '0', '0', '0'], some ['y', 'e', 'a', 'r'],
     "$100,000 - $150,000 per year".toList⟩ (by decide)⟩

/-! ## Claim C6 — per-host rate limiting -/

set_option maxRecDepth 16384 in
/-- Claim C6 (counterexample): the claim asserts no two fetch attempts
against the same host ever start less than 1.5 s apart; but within one
`fetch_with_rotation` call the rate limiter runs only once, before the retry
loop: on a Cloudflare-blocked attempt the stealth-browser fallback is
launched *immediately*, so this execution starts two attempts against the
same host at the same instant (start times in ms: two pairs 0 ms apart). -/
theorem retry_attempts_closer_than_interval :
    (fetchWithRotation envBlockedFetch 100000 [] []
      "https://example.com/a" 2).1.starts = [100000, 100000, 102000, 102000] ∧
    ¬ ((100000 : Int) + 1500 ≤ 100000) := ⟨by decide, by decide⟩

/-- Claim C6 (amended): the rate limiter itself honours the claim's contract
— `_respect_rate_limit` blocks until at least 1.5 s (1500 ms) after the last
recorded request to the host and the recorded wake time never precedes the
call — and it is consulted once per `fetch_with_rotation` call, before the
first attempt; retry attempts inside one call are spaced only by the backoff
delays (2 s · (attempt+1) after a blocked attempt, nothing before the stealth
fallback), which is what the counterexample exploits. -/
theorem rate_limiter_spacing :
    ∀ now last : Int, last ≤ now →
      last + 1500 ≤ respectRateLimit 1500 now last ∧
      now ≤ respectRateLimit 1500 now last := by
  intro now last h
  unfold respectRateLimit
  split
  · next hlt => constructor <;> omega
  · next hge => constructor <;> omega

/-- Claim C6 (witness): the rate-limiter guarantee at a concrete instant. -/
theorem rate_limiter_spacing_witness :
    (0 : Int) + 1500 ≤ respectRateLimit 1500 1000 0 ∧
    (1000 : Int) ≤ respectRateLimit 1500 1000 0 :=
  rate_limiter_spacing 1000 0 (by omega)

/-! ## Merge characterization lemmas -/

theorem orElse_none_right {α : Type} (x : Option α) :
    x.orElse (fun _ => none) = x := by cases x <;> rfl

theorem foldl_merge_val {α : Type} (f : Rec → Option α)
    (hf : ∀ (acc : Rec × FS) (p : Rec × String),
      f ((mergeStep acc p).1) = (f acc.1).orElse (fun _ => f p.1)) :
    ∀ (srcs : List (Rec × String)) (acc : Rec × FS),
      f ((srcs.foldl mergeStep acc).1) =
        (f acc.1).orElse (fun _ => firstSome (srcs.map (fun p => f p.1))) := by
  intro srcs
  induction srcs with
  | nil =>
    intro acc
    rw [List.foldl_nil, List.map_nil]
    cases hfa : f acc.1 <;> rfl
  | cons p t ih =>
    intro acc
    rw [List.foldl_cons, ih (mergeStep acc p), hf acc p, List.map_cons]
    cases hfa : f acc.1 <;> rfl

theorem foldl_merge_src {α : Type} (f : Rec → Option α) (g : FS → Option String)
    (hf : ∀ (acc : Rec × FS) (p : Rec × String),
      f ((mergeStep acc p).1) = (f acc.1).orElse (fun _ => f p.1))
    (hg : ∀ (acc : Rec × FS) (p : Rec × String),
      g ((mergeStep acc p).2) = fsScal (g acc.2) (f acc.1) (f p.1) p.2) :
    ∀ (srcs : List (Rec × String)) (acc : Rec × FS),
      g ((srcs.foldl mergeStep acc).2) =
        if (f acc.1).isSome = true then g acc.2
        else (firstSomeName f srcs).orElse (fun _ => g acc.2) := by
  intro srcs
  induction srcs with
  | nil =>
    intro acc
    rw [List.foldl_nil]
    cases hfa : f acc.1
    · rw [if_neg (fun h => Bool.noConfusion h)]; rfl
    · next a => rw [if_pos (show (some a : Option α).isSome = true from rfl)]
  | cons p t ih =>
    intro acc
    rw [List.foldl_cons, ih (mergeStep acc p), hg acc p, hf acc p]
    cases hfa : f acc.1 with
    | some a =>
      rw [if_pos (show ((some a : Option α).orElse fun _ => f p.1).isSome = true
            from rfl),
          if_pos (show (some a : Option α).isSome = true from rfl)]
      rfl
    | none =>
      cases hfp : f p.1 with
      | some b =>
        rw [if_pos (show ((none : Option α).orElse fun _ => some b).isSome = true
              from rfl),
            if_neg (fun h => Bool.noConfusion h)]
        show (some p.2 : Option String) =
          (firstSomeName f (p :: t)).orElse fun _ => g acc.2
        unfold firstSomeName
        rw [List.find?_cons_of_pos _ (by simp [hfp])]
        rfl
      | none =>
        rw [if_neg (fun h => Bool.noConfusion h),
            if_neg (fun h => Bool.noConfusion h)]
        show (firstSomeName f t).orElse (fun _ => g acc.2) =
          (firstSomeName f (p :: t)).orElse fun _ => g acc.2
        unfold firstSomeName
        rw [List.find?_cons_of_neg _ (by simp [hfp])]

/-- The scalar-field characterization of `SimpleJobExtractor._merge`: the
merged value is the first non-`None` value in priority order, and the
recorded source is the first method carrying the field. -/
theorem extractorMerge_scalar {α : Type} (f : Rec → Option α)
    (g : FS → Option String)
    (hf : ∀ (acc : Rec × FS) (p : Rec × String),
      f ((mergeStep acc p).1) = (f acc.1).orElse (fun _ => f p.1))
    (hg : ∀ (acc : Rec × FS) (p : Rec × String),
      g ((mergeStep acc p).2) = fsScal (g acc.2) (f acc.1) (f p.1) p.2)
    (h0v : f ({} : Rec) = none) (h0s : g ({} : FS) = none)
    (srcs : List (Rec × String)) :
    f ((extractorMerge srcs).1) = firstSome (srcs.map fun p => f p.1) ∧
    g ((extractorMerge srcs).2) = firstSomeName f srcs := by
  constructor
  · rw [extractorMerge, foldl_merge_val f hf srcs ({}, {})]
    dsimp only
    rw [h0v]
    rfl
  · rw [extractorMerge, foldl_merge_src f g hf hg srcs ({}, {})]
    dsimp only
    rw [h0v, h0s, if_neg (fun h => Bool.noConfusion h)]
    exact orElse_none_right _

theorem firstSome_isSome_name {α : Type} (f : Rec → Option α) :
    ∀ srcs : List (Rec × String),
      (firstSome (srcs.map fun p => f p.1)).isSome =
        (firstSomeName f srcs).isSome := by
  intro srcs
  induction srcs with
  | nil => rfl
  | cons p t ih =>
    rw [List.map_cons]
    cases hfp : f p.1 with
    | some a =>
      have h2 : firstSomeName f (p :: t) = some p.2 := by
        unfold firstSomeName
        rw [List.find?_cons_of_pos _ (by simp [hfp])]
        rfl
      rw [h2]; rfl
    | none =>
      have h2 : firstSomeName f (p :: t) = firstSomeName f t := by
        unfold firstSomeName
        rw [List.find?_cons_of_neg _ (by simp [hfp])]
      have h1 : firstSome (none :: List.map (fun p => f p.1) t) =
          firstSome (List.map (fun p => f p.1) t) := rfl
      rw [h1, h2, ih]

/-- A merged scalar field that is populated always has a recorded source. -/
theorem merge_scalar_covered {α : Type} (f : Rec → Option α)
    (g : FS → Option String)
    (hf : ∀ (acc : Rec × FS) (p : Rec × String),
      f ((mergeStep acc p).1) = (f acc.1).orElse (fun _ => f p.1))
    (hg : ∀ (acc : Rec × FS) (p : Rec × String),
      g ((mergeStep acc p).2) = fsScal (g acc.2) (f acc.1) (f p.1) p.2)
    (h0v : f ({} : Rec) = none) (h0s : g ({} : FS) = none)
    (srcs : List (Rec × String)) :
    (f ((extractorMerge srcs).1)).isSome = true →
    (g ((extractorMerge srcs).2)).isSome = true := by
  intro h
  rw [(extractorMerge_scalar f g hf hg h0v h0s srcs).2]
  rw [(extractorMerge_scalar f g hf hg h0v h0s srcs).1,
    firstSome_isSome_name f srcs] at h
  exact h

theorem listUnion_nil_left_cons (x : String) (t : List String) :
    listUnion [] (x :: t) = listUnion [x] t := rfl

theorem listUnion_length (b a : List String) :
    a.length ≤ (listUnion a b).length := by
  induction b generalizing a with
  | nil => exact Nat.le_refl _
  | cons x t ih =>
    show a.length ≤ (listUnion (if x ∈ a then a else a ++ [x]) t).length
    by_cases hx : x ∈ a
    · rw [if_pos hx]; exact ih a
    · rw [if_neg hx]
      refine Nat.le_trans ?_ (ih (a ++ [x]))
      rw [List.length_append]
      omega

theorem listUnion_ne_nil (a b : List String)
    (h : a ≠ [] ∨ b ≠ []) : listUnion a b ≠ [] := by
  intro hc
  have hl := listUnion_length b a
  rw [hc] at hl
  simp at hl
  subst hl
  rcases h with ha | hb
  · exact ha rfl
  · cases b with
    | nil => exact hb rfl
    | cons x t =>
      have h2 := listUnion_length t [x]
      have hc2 : listUnion [x] t = [] := hc
      rw [hc2] at h2
      simp at h2

/-- A merged list field that is populated always has a recorded source. -/
theorem merge_list_covered (f : Rec → List String) (g : FS → Option String)
    (hfv : ∀ (acc : Rec × FS) (p : Rec × String),
      f ((mergeStep acc p).1) = listUnion (f acc.1) (f p.1))
    (hgs : ∀ (acc : Rec × FS) (p : Rec × String),
      g ((mergeStep acc p).2) = fsList (g acc.2) (f p.1) p.2)
    (h0v : f ({} : Rec) = []) (srcs : List (Rec × String)) :
    f ((extractorMerge srcs).1) ≠ [] →
    (g ((extractorMerge srcs).2)).isSome = true := by
  have main : ∀ (l : List (Rec × String)) (acc : Rec × FS),
      (f acc.1 ≠ [] → (g acc.2).isSome = true) →
      (f ((l.foldl mergeStep acc).1) ≠ [] →
        (g ((l.foldl mergeStep acc).2)).isSome = true) := by
    intro l
    induction l with
    | nil =>
      intro acc h
      rw [List.foldl_nil]
      exact h
    | cons p t ih =>
      intro acc hacc
      rw [List.foldl_cons]
      apply ih
      intro hne
      rw [hfv acc p] at hne
      rw [hgs acc p]
      unfold fsList
      by_cases hp : (f p.1).isEmpty = true
      · rw [if_pos hp]
        have hpe : f p.1 = [] := by
          cases hfp : f p.1
          · rfl
          · rw [hfp] at hp; cases hp
        rw [hpe] at hne
        exact hacc (by
          intro hc
          apply hne
          show listUnion (f acc.1) [] = []
          rw [hc]
          rfl)
      · rw [if_neg hp]
        cases hgg : g acc.2 <;> rfl
  intro h
  exact main srcs ({}, {}) (fun hne => absurd h0v hne) h

/-- Value characterization of the `JobScraper` scalar merge: first *truthy*
(non-empty) value in priority order. -/
theorem jsFirstTruthy_val (srcs : List (Rec × String))
    (f : Rec → Option String) :
    (jsFirstTruthy (fun s => s ≠ "") srcs f).map (·.1) =
      specFirstNonEmpty (srcs.map fun p => f p.1) := by
  induction srcs with
  | nil => rfl
  | cons p t ih =>
    rw [List.map_cons]
    cases hfp : f p.1 with
    | some v =>
      simp only [jsFirstTruthy, hfp, specFirstNonEmpty]
      by_cases hv : v = ""
      · simp only [hv]
        rw [if_neg (by simp), if_neg (by simp)]
        exact ih
      · rw [if_pos (by simp [hv]), if_pos hv]
        rfl
    | none =>
      simp only [jsFirstTruthy, hfp, specFirstNonEmpty]
      exact ih

/-! ## Claim C3 — merge priority -/

/-- Claim C3 (counterexample): the claim says the merge assigns each scalar
field the first *non-empty* value; but `SimpleJobExtractor._merge` only skips
`None` values (`v is not None`), so a higher-priority method reporting an
*empty* title (`""`, as `_parse_jobposting` produces for a whitespace JSON-LD
title) shadows a lower-priority method's real value. -/
theorem merge_empty_shadows_nonempty :
    (extractorMerge cexSrcs).1.title = some "" ∧
    specFirstNonEmpty (cexSrcs.map fun p => p.1.title) = some "X" ∧
    (extractorMerge cexSrcs).1.title ≠
      specFirstNonEmpty (cexSrcs.map fun p => p.1.title) :=
  ⟨by decide, by decide, by decide⟩

/-- Claim C3 (amended): for every collection of per-method records,
`SimpleJobExtractor._merge` assigns each scalar field the first
*non-`None`* value in descending method priority (json-ld, site patterns,
profiles, microdata, DOM, regex) — not the first non-empty one — and records
that method in `field_sources`; `JobScraper._merge_extraction_data` assigns
the first *truthy* (non-empty) value.  Both merges are pure functions of the
record collection, so the result does not depend on method evaluation
order. -/
theorem merge_priority_characterization :
    (∀ srcs : List (Rec × String),
      ((extractorMerge srcs).1.title = firstSome (srcs.map fun p => p.1.title) ∧
        (extractorMerge srcs).2.title = firstSomeName Rec.title srcs) ∧
      ((extractorMerge srcs).1.company = firstSome (srcs.map fun p => p.1.company) ∧
        (extractorMerge srcs).2.company = firstSomeName Rec.company srcs) ∧
      ((extractorMerge srcs).1.location = firstSome (srcs.map fun p => p.1.location) ∧
        (extractorMerge srcs).2.location = firstSomeName Rec.location srcs) ∧
      ((extractorMerge srcs).1.employment_type =
          firstSome (srcs.map fun p => p.1.employment_type) ∧
        (extractorMerge srcs).2.employment_type =
          firstSomeName Rec.employment_type srcs) ∧
      ((extractorMerge srcs).1.posted_date =
          firstSome (srcs.map fun p => p.1.posted_date) ∧
        (extractorMerge srcs).2.posted_date =
          firstSomeName Rec.posted_date srcs) ∧
      ((extractorMerge srcs).1.description =
          firstSome (srcs.map fun p => p.1.description) ∧
        (extractorMerge srcs).2.description =
          firstSomeName Rec.description srcs) ∧
      ((extractorMerge srcs).1.salary = firstSome (srcs.map fun p => p.1.salary) ∧
        (extractorMerge srcs).2.salary = firstSomeName Rec.salary srcs)) ∧
    (∀ srcs : List (Rec × String),
      (jsMerge srcs).1.title = specFirstNonEmpty (srcs.map fun p => p.1.title) ∧
      (jsMerge srcs).1.company =
        specFirstNonEmpty (srcs.map fun p => p.1.company)) := by
  constructor
  · intro srcs
    exact ⟨extractorMerge_scalar Rec.title FS.title (fun _ _ => rfl)
        (fun _ _ => rfl) rfl rfl srcs,
      extractorMerge_scalar Rec.company FS.company (fun _ _ => rfl)
        (fun _ _ => rfl) rfl rfl srcs,
      extractorMerge_scalar Rec.location FS.location (fun _ _ => rfl)
        (fun _ _ => rfl) rfl rfl srcs,
      extractorMerge_scalar Rec.employment_type FS.employment_type
        (fun _ _ => rfl) (fun _ _ => rfl) rfl rfl srcs,
      extractorMerge_scalar Rec.posted_date FS.posted_date (fun _ _ => rfl)
        (fun _ _ => rfl) rfl rfl srcs,
      extractorMerge_scalar Rec.description FS.description (fun _ _ => rfl)
        (fun _ _ => rfl) rfl rfl srcs,
      extractorMerge_scalar Rec.salary FS.salary (fun _ _ => rfl)
        (fun _ _ => rfl) rfl rfl srcs⟩
  · intro srcs
    exact ⟨jsFirstTruthy_val srcs Rec.title, jsFirstTruthy_val srcs Rec.company⟩

/-! ## Claim C10 — fieldSources coverage -/

/-- Claim C10 (counterexample): the claim says every populated field of the
final record has a `field_sources` entry, including repair-filled fields; but
on a document with no extractable data the repair step fills `title`
(non-empty `"Job Opening"`) while `field_sources` stays empty. -/
theorem repaired_title_lacks_source :
    (simpleExtract envId "https://jobs.example.com/x" [] {} {} {} {} {}
      "T").title = "Job Opening" ∧
    (simpleExtract envId "https://jobs.example.com/x" [] {} {} {} {} {}
      "T").title ≠ "" ∧
    (simpleExtract envId "https://jobs.example.com/x" [] {} {} {} {} {}
      "T").provenance.field_sources.title = none :=
  ⟨by decide, by decide, by decide⟩

/-- Claim C10 (amended): every field populated *by the merge* has a
`field_sources` entry in the final provenance (scalar fields and list
fields alike); fields filled in afterwards — by `enhance_job_data`, by the
repair step, or the `source_url`/`retrieved_at` metadata — carry no entry,
which is what the counterexample shows. -/
theorem populated_fields_have_sources :
    ∀ (env : Env) (url : String) (scripts : List Json) (sp pd md dm rg : Rec)
      (ra : String),
      (((extractorMerge (mergeSrcs env scripts sp pd md dm rg)).1.title).isSome = true →
        ((simpleExtract env url scripts sp pd md dm rg ra).provenance.field_sources.title).isSome = true) ∧
      (((extractorMerge (mergeSrcs env scripts sp pd md dm rg)).1.company).isSome = true →
        ((simpleExtract env url scripts sp pd md dm rg ra).provenance.field_sources.company).isSome = true) ∧
      (((extractorMerge (mergeSrcs env scripts sp pd md dm rg)).1.location).isSome = true →
        ((simpleExtract env url scripts sp pd md dm rg ra).provenance.field_sources.location).isSome = true) ∧
      (((extractorMerge (mergeSrcs env scripts sp pd md dm rg)).1.employment_type).isSome = true →
        ((simpleExtract env url scripts sp pd md dm rg ra).provenance.field_sources.employment_type).isSome = true) ∧
      (((extractorMerge (mergeSrcs env scripts sp pd md dm rg)).1.posted_date).isSome = true →
        ((simpleExtract env url scripts sp pd md dm rg ra).provenance.field_sources.posted_date).isSome = true) ∧
      (((extractorMerge (mergeSrcs env scripts sp pd md dm rg)).1.description).isSome = true →
        ((simpleExtract env url scripts sp pd md dm rg ra).provenance.field_sources.description).isSome = true) ∧
      (((extractorMerge (mergeSrcs env scripts sp pd md dm rg)).1.req_id).isSome = true →
        ((simpleExtract env url scripts sp pd md dm rg ra).provenance.field_sources.req_id).isSome = true) ∧
      (((extractorMerge (mergeSrcs env scripts sp pd md dm rg)).1.team).isSome = true →
        ((simpleExtract env url scripts sp pd md dm rg ra).provenance.field_sources.team).isSome = true) ∧
      (((extractorMerge (mergeSrcs env scripts sp pd md dm rg)).1.level).isSome = true →
        ((simpleExtract env url scripts sp pd md dm rg ra).provenance.field_sources.level).isSome = true) ∧
      (((extractorMerge (mergeSrcs env scripts sp pd md dm rg)).1.apply_url).isSome = true →
        ((simpleExtract env url scripts sp pd md dm rg ra).provenance.field_sources.apply_url).isSome = true) ∧
      (((extractorMerge (mergeSrcs env scripts sp pd md dm rg)).1.salary).isSome = true →
        ((simpleExtract env url scripts sp pd md dm rg ra).provenance.field_sources.salary).isSome = true) ∧
      ((extractorMerge (mergeSrcs env scripts sp pd md dm rg)).1.responsibilities ≠ [] →
        ((simpleExtract env url scripts sp pd md dm rg ra).provenance.field_sources.responsibilities).isSome = true) ∧
      ((extractorMerge (mergeSrcs env scripts sp pd md dm rg)).1.qualifications ≠ [] →
        ((simpleExtract env url scripts sp pd md dm rg ra).provenance.field_sources.qualifications).isSome = true) ∧
      ((extractorMerge (mergeSrcs env scripts sp pd md dm rg)).1.skills ≠ [] →
        ((simpleExtract env url scripts sp pd md dm rg ra).provenance.field_sources.skills).isSome = true) ∧
      ((extractorMerge (mergeSrcs env scripts sp pd md dm rg)).1.benefits ≠ [] →
        ((simpleExtract env url scripts sp pd md dm rg ra).provenance.field_sources.benefits).isSome = true) := by
  intro env url scripts sp pd md dm rg ra
  have hfs : (simpleExtract env url scripts sp pd md dm rg ra).provenance.field_sources =
      (extractorMerge (mergeSrcs env scripts sp pd md dm rg)).2 := rfl
  rw [hfs]
  exact ⟨merge_scalar_covered Rec.title FS.title (fun _ _ => rfl)
      (fun _ _ => rfl) rfl rfl _,
    merge_scalar_covered Rec.company FS.company (fun _ _ => rfl)
      (fun _ _ => rfl) rfl rfl _,
    merge_scalar_covered Rec.location FS.location (fun _ _ => rfl)
      (fun _ _ => rfl) rfl rfl _,
    merge_scalar_covered Rec.employment_type FS.employment_type
      (fun _ _ => rfl) (fun _ _ => rfl) rfl rfl _,
    merge_scalar_covered Rec.posted_date FS.posted_date (fun _ _ => rfl)
      (fun _ _ => rfl) rfl rfl _,
    merge_scalar_covered Rec.description FS.description (fun _ _ => rfl)
      (fun _ _ => rfl) rfl rfl _,
    merge_scalar_covered Rec.req_id FS.req_id (fun _ _ => rfl)
      (fun _ _ => rfl) rfl rfl _,
    merge_scalar_covered Rec.team FS.team (fun _ _ => rfl)
      (fun _ _ => rfl) rfl rfl _,
    merge_scalar_covered Rec.level FS.level (fun _ _ => rfl)
      (fun _ _ => rfl) rfl rfl _,
    merge_scalar_covered Rec.apply_url FS.apply_url (fun _ _ => rfl)
      (fun _ _ => rfl) rfl rfl _,
    merge_scalar_covered Rec.salary FS.salary (fun _ _ => rfl)
      (fun _ _ => rfl) rfl rfl _,
    merge_list_covered Rec.responsibilities FS.responsibilities
      (fun _ _ => rfl) (fun _ _ => rfl) rfl _,
    merge_list_covered Rec.qualifications FS.qualifications
      (fun _ _ => rfl) (fun _ _ => rfl) rfl _,
    merge_list_covered Rec.skills FS.skills
      (fun _ _ => rfl) (fun _ _ => rfl) rfl _,
    merge_list_covered Rec.benefits FS.benefits
      (fun _ _ => rfl) (fun _ _ => rfl) rfl _⟩

/-- Claim C10 (witness): the coverage implication on a concrete document
whose JSON-LD supplies the title. -/
theorem populated_fields_have_sources_witness :
    ((simpleExtract envId "https://example.com/a" [jpAcme] {} {} {} {} {}
      "T").provenance.field_sources.title).isSome = true :=
  (populated_fields_have_sources envId "https://example.com/a" [jpAcme]
    {} {} {} {} {} "T").1 (by decide)

/-! ## Claim C9 — company repair from the hostname -/

theorem jsSynthesizeDescription_warn_mono (data : Rec) (c t : String)
    (w : List String) (x : String) (hx : x ∈ w) :
    x ∈ (jsSynthesizeDescription data c t w).2 := by
  unfold jsSynthesizeDescription
  split
  · exact List.mem_append_left _ hx
  · exact List.mem_append_left _ hx

theorem jsRepairDescription_warn_mono (data : Rec) (c t : String)
    (w : List String) (x : String) (hx : x ∈ w) :
    x ∈ (jsRepairDescription data c t w).2 := by
  unfold jsRepairDescription
  split
  · split
    · exact hx
    · exact jsSynthesizeDescription_warn_mono _ _ _ _ _ hx
  · exact jsSynthesizeDescription_warn_mono _ _ _ _ _ hx

theorem repairDescription_warn_mono (d : Option String) (c t : String)
    (w : List String) (x : String) (hx : x ∈ w) :
    x ∈ (repairDescription d c t w).2 := by
  unfold repairDescription
  split
  · split
    · exact hx
    · exact List.mem_append_left _ hx
  · exact List.mem_append_left _ hx

/-- Claim C9 (counterexample): the claim says the repair derives the company
by stripping the `jobs.` prefix, so host `jobs.example.com` yields
`"Example"`; but `SimpleJobExtractor._validate_and_repair` title-cases the
*first hostname label without stripping*, yielding `"Jobs"`. -/
theorem server_company_not_prefix_stripped :
    (simpleExtract envId "https://jobs.example.com/x" [] {} {} {} {} {}
      "T").company = "Jobs" ∧
    ("Jobs" : String) ≠ "Example" ∧
    "Company guessed from hostname" ∈
      (simpleExtract envId "https://jobs.example.com/x" [] {} {} {} {} {}
        "T").provenance.warnings :=
  ⟨by decide, by decide, by decide⟩

/-- Claim C9 (amended): when the merged record has no company,
`JobScraper._validate_and_repair` derives it from the source hostname with
the `www.`/`jobs.`/`careers.` prefix stripped, title-cased, with a warning —
for host `jobs.example.com` giving `"Example"` — whereas
`SimpleJobExtractor._validate_and_repair` title-cases the first hostname
label *without* any prefix stripping, giving `"Jobs"` (also with a warning);
both fall back to `"Unknown Company"`. -/
theorem company_repair_from_hostname :
    ∀ (data : Rec) (url : String) (w0 : List String) (rec2 : Rec)
      (ra m : String) (conf : Nat) (fs : FS),
      truthyStr data.company = false →
      pyHostname url = "jobs.example.com" →
      truthyStr rec2.company = false →
      ((jsValidateRepair data url w0).1.company = some "Example" ∧
        "Company name guessed from URL: Example" ∈
          (jsValidateRepair data url w0).2) ∧
      ((validateAndRepair rec2 url ra m conf fs).company = "Jobs" ∧
        "Company guessed from hostname" ∈
          (validateAndRepair rec2 url ra m conf fs).provenance.warnings) := by
  intro data url w0 rec2 ra m conf fs hco hhost hco2
  have hjs : ∀ w : List String, jsRepairCompany data.company url w =
      ("Example", w ++ ["Company name guessed from URL: Example"]) := by
    intro w
    unfold jsRepairCompany
    rw [if_neg (by rw [hco]; exact fun h => Bool.noConfusion h)]
    rw [hhost]
    rw [if_pos (by decide)]
    rw [show jsCompanyGuess "jobs.example.com" = "Example" from by decide]
    rw [if_pos (by constructor <;> decide)]
    rw [show ("Company name guessed from URL: " ++ "Example" : String) =
      "Company name guessed from URL: Example" from by decide]
  have hsv : ∀ w : List String, repairCompany rec2.company url w =
      ("Jobs", w ++ ["Company guessed from hostname"]) := by
    intro w
    unfold repairCompany
    rw [if_neg (by rw [hco2]; exact fun h => Bool.noConfusion h)]
    rw [hhost]
    rw [show ((splitOnChar '.' "jobs.example.com").headD "") = "jobs" from
      by decide]
    rw [if_pos (by decide)]
    rw [show pyTitle "jobs" = "Jobs" from by decide]
  constructor
  · constructor
    · show (jsRepairCompany data.company url
        (jsRepairTitle data.title data.description w0).2).1 = some "Example"
      rw [hjs]
    · show "Company name guessed from URL: Example" ∈
        (jsRepairDescription data
          (jsRepairCompany data.company url
            (jsRepairTitle data.title data.description w0).2).1
          (jsRepairTitle data.title data.description w0).1
          (jsRepairCompany data.company url
            (jsRepairTitle data.title data.description w0).2).2).2
      apply jsRepairDescription_warn_mono
      rw [hjs]
      exact List.mem_append_right _ (List.mem_singleton.mpr rfl)
  · constructor
    · show (repairCompany rec2.company url (repairTitle rec2.title []).2).1 =
        "Jobs"
      rw [hsv]
    · show "Company guessed from hostname" ∈
        (repairDescription rec2.description
          (repairCompany rec2.company url (repairTitle rec2.title []).2).1
          (repairTitle rec2.title []).1
          (repairCompany rec2.company url (repairTitle rec2.title []).2).2).2
      apply repairDescription_warn_mono
      rw [hsv]
      exact List.mem_append_right _ (List.mem_singleton.mpr rfl)

/-- Claim C9 (witness): the amended repair behaviour at the concrete host
`jobs.example.com` with empty records. -/
theorem company_repair_from_hostname_witness :
    ((jsValidateRepair {} "https://jobs.example.com/x" []).1.company =
        some "Example" ∧
      "Company name guessed from URL: Example" ∈
        (jsValidateRepair {} "https://jobs.example.com/x" []).2) ∧
    ((validateAndRepair {} "https://jobs.example.com/x" "T" "fallback" 50
        {}).company = "Jobs" ∧
      "Company guessed from hostname" ∈
        (validateAndRepair {} "https://jobs.example.com/x" "T" "fallback" 50
          {}).provenance.warnings) :=
  company_repair_from_hostname {} "https://jobs.example.com/x" [] {}
    "T" "fallback" 50 {} rfl (by decide) rfl

/-! ## Claim C1 — JSON-LD extraction -/

theorem extractJsonLd_eq (env : Env) (scripts : List Json) (d : Json)
    (h : (scripts.flatMap ldItems).find? isJobPostingItem = some d) :
    extractJsonLd env scripts = parseJobposting env d := by
  unfold extractJsonLd
  rw [h]

theorem parseJobposting_title (env : Env) (d : Json) (t : String)
    (h : d.get? "title" = some (.str t)) (ht : t ≠ "") :
    (parseJobposting env d).title = some (trimStr t) := by
  show truthyStrField (d.get? "title") = some (trimStr t)
  rw [h]
  show (if (Json.str t).truthy = true then some (trimStr (Json.str t).pyStr)
    else none) = some (trimStr t)
  rw [if_pos (by simp [Json.truthy, ht])]
  rfl

theorem parseJobposting_company (env : Env) (d : Json)
    (o : List (String × Json)) (n : String)
    (h3 : d.get? "hiringOrganization" = some (.obj o))
    (h4 : alookup o "name" = some (.str n)) (hn : n ≠ "") :
    (parseJobposting env d).company = some (trimStr n) := by
  have ho : o ≠ [] := by
    intro hc
    rw [hc] at h4
    cases h4
  have horg : jsonOr (d.get? "hiringOrganization")
      (d.get? "hiringorganization") = some (.obj o) := by
    cases o with
    | nil => exact absurd rfl ho
    | cons a l => rw [h3]; rfl
  have hstr : ∀ y : Option Json, jsonOr (some (Json.str n)) y =
      some (Json.str n) := by
    intro y
    show (if (Json.str n).truthy = true then some (Json.str n) else y) =
      some (Json.str n)
    rw [if_pos (by simp [Json.truthy, hn])]
  show companyFromOrg (jsonOr (d.get? "hiringOrganization")
    (d.get? "hiringorganization")) = some (trimStr n)
  rw [horg]
  show (match jsonOr (jsonOr (jsonOr (alookup o "name") (alookup o "@name"))
      (alookup o "legalName")) (alookup o "alternateName") with
    | some nm => if nm.truthy then some (trimStr nm.pyStr) else none
    | none => none) = some (trimStr n)
  rw [h4, hstr, hstr, hstr]
  show (if (Json.str n).truthy = true then some (trimStr (Json.str n).pyStr)
    else none) = some (trimStr n)
  rw [if_pos (by simp [Json.truthy, hn])]
  rfl

theorem enhance_title_some (env : Env) (url : String) (data : Rec)
    (t : String) (hd : data.title = some t) (ht : t ≠ "") :
    (enhanceJobData env url data).title = some (cleanTitle t) := by
  show (match data.title with
    | some t => if t ≠ "" then some (cleanTitle t) else some t
    | none => none) = some (cleanTitle t)
  rw [hd]
  exact if_pos ht

theorem enhance_company (env : Env) (url : String) (data : Rec) :
    (enhanceJobData env url data).company = data.company := rfl

theorem repairTitle_truthy (t : String) (w : List String) (ht : t ≠ "") :
    repairTitle (some t) w = (t, w) := by
  unfold repairTitle
  rw [if_pos (by simp [truthyStr, ht])]
  rfl

theorem repairCompany_truthy (c : String) (url : String) (w : List String)
    (hc : c ≠ "") : repairCompany (some c) url w = (c, w) := by
  unfold repairCompany
  rw [if_pos (by simp [truthyStr, hc])]
  rfl

set_option maxRecDepth 2048 in
/-- Claim C1 (counterexample): the page's `application/ld+json` scripts parse
to a fieldless `JobPosting` item followed by one carrying
`title = "Backend Engineer"` and `hiringOrganization.name = "Acme"`; the
claim requires title `"Backend Engineer"`, company `"Acme"`, confidence
≥ 0.9 and method `"json-ld"`.  The source returns the parse of the *first*
`JobPosting`-typed item — here the empty one — so the second, qualifying
block is ignored: the output is the repaired default with method
`"fallback"` and confidence 0.5. -/
theorem shadowed_jsonld_block_ignored :
    (simpleExtract envId "https://example.com/a" [jpEmpty, jpAcme]
      {} {} {} {} {} "T").title = "Job Opening" ∧
    (simpleExtract envId "https://example.com/a" [jpEmpty, jpAcme]
      {} {} {} {} {} "T").title ≠ "Backend Engineer" ∧
    (simpleExtract envId "https://example.com/a" [jpEmpty, jpAcme]
      {} {} {} {} {} "T").company ≠ "Acme" ∧
    (simpleExtract envId "https://example.com/a" [jpEmpty, jpAcme]
      {} {} {} {} {} "T").provenance.extraction_method = "fallback" ∧
    (simpleExtract envId "https://example.com/a" [jpEmpty, jpAcme]
      {} {} {} {} {} "T").provenance.confidence_score = 50 ∧
    ¬ (90 ≤ (simpleExtract envId "https://example.com/a" [jpEmpty, jpAcme]
      {} {} {} {} {} "T").provenance.confidence_score) :=
  ⟨by decide, by decide, by decide, by decide, by decide, by decide⟩

/-- Claim C1 (amended): when the *first* `JobPosting`-typed JSON-LD item of
the document carries a non-empty string title and a dict
`hiringOrganization` whose `name` is a non-empty string — and the cleaned
values stay non-empty — `extract` returns that title after whitespace
stripping and the `Job:`/`Position:`/`Role:` prefix/suffix clean-up of
`enhance_job_data`, the organization name after whitespace stripping,
provenance confidence 0.95 ≥ 0.9, and extraction method `"json-ld"`. -/
theorem jsonld_first_block_extraction :
    ∀ (env : Env) (url : String) (scripts : List Json) (sp pd md dm rg : Rec)
      (ra : String) (d : Json) (o : List (String × Json)) (t n : String),
      (scripts.flatMap ldItems).find? isJobPostingItem = some d →
      d.get? "title" = some (.str t) → t ≠ "" →
      d.get? "hiringOrganization" = some (.obj o) →
      alookup o "name" = some (.str n) → n ≠ "" →
      cleanTitle (trimStr t) ≠ "" → trimStr n ≠ "" →
      (simpleExtract env url scripts sp pd md dm rg ra).title =
        cleanTitle (trimStr t) ∧
      (simpleExtract env url scripts sp pd md dm rg ra).company = trimStr n ∧
      (simpleExtract env url scripts sp pd md dm rg
        ra).provenance.confidence_score = 95 ∧
      90 ≤ (simpleExtract env url scripts sp pd md dm rg
        ra).provenance.confidence_score ∧
      (simpleExtract env url scripts sp pd md dm rg
        ra).provenance.extraction_method = "json-ld" := by
  intro env url scripts sp pd md dm rg ra d o t n h1 h2 ht h3 h4 hn hct hnt
  have htrim : trimStr t ≠ "" := fun he => hct (by rw [he]; rfl)
  have hjld : extractJsonLd env scripts = parseJobposting env d :=
    extractJsonLd_eq env scripts d h1
  have hmt : (extractorMerge (mergeSrcs env scripts sp pd md dm
      rg)).1.title = some (trimStr t) := by
    rw [(extractorMerge_scalar Rec.title FS.title (fun _ _ => rfl)
      (fun _ _ => rfl) rfl rfl (mergeSrcs env scripts sp pd md dm rg)).1]
    simp only [mergeSrcs, List.map_cons, List.map_nil]
    rw [hjld, parseJobposting_title env d t h2 ht]
    rfl
  have hmc : (extractorMerge (mergeSrcs env scripts sp pd md dm
      rg)).1.company = some (trimStr n) := by
    rw [(extractorMerge_scalar Rec.company FS.company (fun _ _ => rfl)
      (fun _ _ => rfl) rfl rfl (mergeSrcs env scripts sp pd md dm rg)).1]
    simp only [mergeSrcs, List.map_cons, List.map_nil]
    rw [hjld, parseJobposting_company env d o n h3 h4 hn]
    rfl
  have henT : (enhanceJobData env url (extractorMerge (mergeSrcs env scripts
      sp pd md dm rg)).1).title = some (cleanTitle (trimStr t)) :=
    enhance_title_some env url _ _ hmt htrim
  have henC : (enhanceJobData env url (extractorMerge (mergeSrcs env scripts
      sp pd md dm rg)).1).company = some (trimStr n) := by
    rw [enhance_company, hmc]
  have hne : (parseJobposting env d).nonempty = true := by
    unfold Rec.nonempty
    rw [parseJobposting_title env d t h2 ht]
    rfl
  have hconf : methodConfidence (extractJsonLd env scripts) sp pd = 95 := by
    rw [hjld]
    unfold methodConfidence
    rw [if_pos hne]
  have hmeth : primaryMethod (extractJsonLd env scripts) sp pd = "json-ld" := by
    rw [hjld]
    unfold primaryMethod
    rw [if_pos hne]
  refine ⟨?_, ?_, ?_, ?_, ?_⟩
  · show (repairTitle (enhanceJobData env url (extractorMerge (mergeSrcs env
      scripts sp pd md dm rg)).1).title []).1 = cleanTitle (trimStr t)
    rw [henT, repairTitle_truthy _ _ hct]
  · show (repairCompany (enhanceJobData env url (extractorMerge (mergeSrcs
      env scripts sp pd md dm rg)).1).company url
      (repairTitle (enhanceJobData env url (extractorMerge (mergeSrcs env
        scripts sp pd md dm rg)).1).title []).2).1 = trimStr n
    rw [henC, repairCompany_truthy _ _ _ hnt]
  · show methodConfidence (extractJsonLd env scripts) sp pd = 95
    exact hconf
  · show 90 ≤ methodConfidence (extractJsonLd env scripts) sp pd
    rw [hconf]
    exact by omega
  · show primaryMethod (extractJsonLd env scripts) sp pd = "json-ld"
    exact hmeth

/-- Claim C1 (witness): the amended extraction on the concrete qualifying
document (one JSON-LD `JobPosting` with title and organization). -/
theorem jsonld_first_block_extraction_witness :
    (simpleExtract envId "https://example.com/a" [jpAcme] {} {} {} {} {}
      "T").title = cleanTitle (trimStr "Backend Engineer") ∧
    (simpleExtract envId "https://example.com/a" [jpAcme] {} {} {} {} {}
      "T").company = trimStr "Acme" ∧
    (simpleExtract envId "https://example.com/a" [jpAcme] {} {} {} {} {}
      "T").provenance.confidence_score = 95 ∧
    90 ≤ (simpleExtract envId "https://example.com/a" [jpAcme] {} {} {} {} {}
      "T").provenance.confidence_score ∧
    (simpleExtract envId "https://example.com/a" [jpAcme] {} {} {} {} {}
      "T").provenance.extraction_method = "json-ld" :=
  jsonld_first_block_extraction envId "https://example.com/a" [jpAcme]
    {} {} {} {} {} "T" jpAcme [("name", .str "Acme")] "Backend Engineer"
    "Acme" rfl rfl (by decide) rfl rfl (by decide) (by decide) (by decide)

/-! ## Claim C5 — the response cache -/

theorem alookup_removeKey {α : Type} (c : List (String × α)) (k : String) :
    alookup (removeKey c k) k = none := by
  induction c with
  | nil => rfl
  | cons p t ih =>
    obtain ⟨k1, v1⟩ := p
    show alookup (((k1, v1) :: t).filter (fun q => q.1 ≠ k)) k = none
    rw [List.filter_cons]
    by_cases hp : k1 = k
    · rw [if_neg (by simp [hp])]
      exact ih
    · rw [if_pos (by simp [hp])]
      show (if k1 = k then some v1
        else alookup (t.filter fun q => q.1 ≠ k) k) = none
      rw [if_neg hp]
      exact ih

theorem alookup_cachePut (now : Int) (c : Cache) (url html : String)
    (st : Nat) :
    alookup (cachePut now c url html st) url = some (now, html, st) := by
  show (if url = url then some ((now : Int), html, st)
    else alookup (removeKey c url) url) = some (now, html, st)
  rw [if_pos rfl]

theorem cacheGet_hit (ttl now : Int) (c : Cache) (url : String) (ts : Int)
    (h : String) (st : Nat) (hl : alookup c url = some (ts, h, st))
    (hle : now - ts ≤ ttl) :
    cacheGet ttl now c url = (some (h, st), c) := by
  unfold cacheGet
  rw [hl]
  show (if now - ts ≤ ttl then ((some (h, st) : Option (String × Nat)), c)
    else (none, removeKey c url)) = (some (h, st), c)
  rw [if_pos hle]

theorem cacheGet_stale (ttl now : Int) (c : Cache) (url : String) (ts : Int)
    (h : String) (st : Nat) (hl : alookup c url = some (ts, h, st))
    (hgt : ttl < now - ts) :
    cacheGet ttl now c url = (none, removeKey c url) := by
  unfold cacheGet
  rw [hl]
  show (if now - ts ≤ ttl then ((some (h, st) : Option (String × Nat)), c)
    else (none, removeKey c url)) = (none, removeKey c url)
  rw [if_neg (by omega)]

theorem cacheGet_inv (ttl now : Int) (c : Cache) (url : String)
    (hs : String × Nat) (h : (cacheGet ttl now c url).1 = some hs) :
    (cacheGet ttl now c url).2 = c ∧
    ∃ ts, alookup c url = some (ts, hs.1, hs.2) := by
  cases hl : alookup c url with
  | none =>
    have hc : cacheGet ttl now c url = (none, c) := by
      unfold cacheGet
      rw [hl]
    rw [hc] at h
    cases h
  | some v =>
    obtain ⟨ts, hh, st⟩ := v
    by_cases hle : now - ts ≤ ttl
    · have hc := cacheGet_hit ttl now c url ts hh st hl hle
      rw [hc] at h
      have h2 : some (hh, st) = some hs := h
      obtain rfl : hs = (hh, st) := (Option.some.inj h2).symm
      rw [hc]
      refine ⟨rfl, ts, ?_⟩
      first
      | exact rfl
      | exact hl
    · have hc := cacheGet_stale ttl now c url ts hh st hl (by omega)
      rw [hc] at h
      cases h

/-- Any `fetchLoop` outcome either carries empty html or is recorded in the
returned cache under the fetched URL. -/
theorem fetchLoop_html_or_cached (env : FetchEnv) (url : String) :
    ∀ (fuel i : Nat) (t : Int) (c : Cache) (le : Option String),
      (fetchLoop env url fuel i t c le).html = "" ∨
      ∃ tp, alookup (fetchLoop env url fuel i t c le).cache url =
        some (tp, (fetchLoop env url fuel i t c le).html,
          (fetchLoop env url fuel i t c le).status) := by
  intro fuel
  induction fuel with
  | zero => intro i t c le; left; rfl
  | succ fuel ih =>
    intro i t c le
    simp only [fetchLoop]
    split
    · right
      exact ⟨t + env.attemptDur i, alookup_cachePut _ _ _ _ _⟩
    · split
      · split
        · split
          · right
            exact ⟨t + env.attemptDur i + env.stealthDur,
              alookup_cachePut _ _ _ _ _⟩
          · exact ih _ _ _ _
        · exact ih _ _ _ _
      · exact ih _ _ _ _

/-- Claim C5 (confirmed): (a) every `fetch_with_rotation` call that returns
non-empty html leaves a cache entry holding exactly the returned html and
status; (b) a second call for the same URL begun while the entry is within
the 10 s TTL returns the cached html and status and performs zero underlying
fetch attempts; (c) an entry older than the TTL is discarded by `_cache_get`
rather than served. -/
theorem cache_dedup_and_ttl :
    (∀ (env : FetchEnv) (now : Int) (cache : Cache)
       (lh : List (String × Int)) (url : String) (mr : Nat),
       (fetchWithRotation env now cache lh url mr).1.html ≠ "" →
       ∃ tp, alookup (fetchWithRotation env now cache lh url mr).1.cache url =
         some (tp, (fetchWithRotation env now cache lh url mr).1.html,
           (fetchWithRotation env now cache lh url mr).1.status)) ∧
    (∀ (env : FetchEnv) (now2 : Int) (cache : Cache)
       (lh : List (String × Int)) (url : String) (mr : Nat) (ts : Int)
       (h : String) (st : Nat),
       alookup cache url = some (ts, h, st) → now2 - ts ≤ 10000 →
       (fetchWithRotation env now2 cache lh url mr).1.html = h ∧
       (fetchWithRotation env now2 cache lh url mr).1.status = st ∧
       (fetchWithRotation env now2 cache lh url mr).1.fetches = 0 ∧
       (fetchWithRotation env now2 cache lh url mr).1.starts = []) ∧
    (∀ (now : Int) (cache : Cache) (url : String) (ts : Int) (h : String)
       (st : Nat),
       alookup cache url = some (ts, h, st) → 10000 < now - ts →
       (cacheGet 10000 now cache url).1 = none ∧
       alookup (cacheGet 10000 now cache url).2 url = none) := by
  refine ⟨?_, ?_, ?_⟩
  · intro env now cache lh url mr hne
    revert hne
    simp only [fetchWithRotation]
    split
    · next hs heq =>
      intro hne
      obtain ⟨hc2, ts, hl⟩ := cacheGet_inv 10000 now cache url hs heq
      exact ⟨ts, by rw [hc2]; exact hl⟩
    · intro hne
      rcases fetchLoop_html_or_cached env url mr 0
          (respectRateLimit 1500 now
            ((alookup lh (pyNetloc url)).getD 0))
          (cacheGet 10000 now cache url).2 none with he | hca
      · exact absurd he hne
      · exact hca
  · intro env now2 cache lh url mr ts h st hl hle
    have hc := cacheGet_hit 10000 now2 cache url ts h st hl hle
    simp [fetchWithRotation, hc]
  · intro now cache url ts h st hl hgt
    have hc := cacheGet_stale 10000 now cache url ts h st hl hgt
    rw [hc]
    exact ⟨rfl, alookup_removeKey _ _⟩

set_option maxRecDepth 8192 in
/-- Claim C5 (witness): a concrete successful fetch caches its page, and a
second call 5 s later is served from the cache with zero fetch attempts; a
call 11 s later finds the entry stale. -/
theorem cache_dedup_and_ttl_witness :
    (∃ tp, alookup (fetchWithRotation envPlainFetch 100000 [] []
        "https://example.com/a" 3).1.cache "https://example.com/a" =
      some (tp, (fetchWithRotation envPlainFetch 100000 [] []
        "https://example.com/a" 3).1.html,
        (fetchWithRotation envPlainFetch 100000 [] []
          "https://example.com/a" 3).1.status)) ∧
    ((fetchWithRotation envPlainFetch 105000
        [("https://example.com/a", (100000, htmlPlain, 200))] []
        "https://example.com/a" 3).1.html = htmlPlain ∧
      (fetchWithRotation envPlainFetch 105000
        [("https://example.com/a", (100000, htmlPlain, 200))] []
        "https://example.com/a" 3).1.fetches = 0) ∧
    (cacheGet 10000 111000
      [("https://example.com/a", (100000, htmlPlain, 200))]
      "https://example.com/a").1 = none :=
  ⟨cache_dedup_and_ttl.1 envPlainFetch 100000 [] [] "https://example.com/a" 3
      (by decide),
    ⟨(cache_dedup_and_ttl.2.1 envPlainFetch 105000
        [("https://example.com/a", (100000, htmlPlain, 200))] []
        "https://example.com/a" 3 100000 htmlPlain 200 rfl (by decide)).1,
      (cache_dedup_and_ttl.2.1 envPlainFetch 105000
        [("https://example.com/a", (100000, htmlPlain, 200))] []
        "https://example.com/a" 3 100000 htmlPlain 200 rfl (by decide)).2.2.1⟩,
    (cache_dedup_and_ttl.2.2 111000
      [("https://example.com/a", (100000, htmlPlain, 200))]
      "https://example.com/a" 100000 htmlPlain 200 rfl (by decide)).1⟩

end TalentFlow
